import Mathlib

/-!
Platform helpers of the Swift compiler (`lib/Basic/Platform.cpp`)

A shallow embedding of `lib/Basic/Platform.cpp`.  The functions of that file
are translated one by one in the namespace `swift`.  They work on values of
the library types `llvm::Triple` and `llvm::VersionTuple`, which are not part
of the repository; the namespace `llvm` holds a model of the part of those
types that `Platform.cpp` observes, following LLVM 11
(`llvm/ADT/Triple.h`, `llvm/lib/Support/Triple.cpp`,
`llvm/Support/VersionTuple.h`).  `llvm_unreachable` is modelled by
`Except.error` carrying the message.

Strings (`StringRef`, `std::string`) are lists of characters.
-/

set_option autoImplicit false

deriving instance DecidableEq for Except

namespace llvm

/-- A `StringRef`: a sequence of characters. -/
abbrev StringRef := List Char

/-- The test `llvm::isDigit`: an ASCII digit `0`-`9`. -/
def isDigit (c : Char) : Bool := decide ('0' ≤ c) && decide (c ≤ '9')

/-- The method `StringRef::startswith`. -/
def startswith (s pre : StringRef) : Bool := pre.isPrefixOf s

/-- The method `StringRef::take_until(F)`: the longest prefix none of whose
characters satisfies `F`. -/
def take_until (F : Char → Bool) : StringRef → StringRef
  | [] => []
  | c :: cs => if F c then [] else c :: take_until F cs

/-- The method `StringRef::split(char)`: the text before the first separator
and the text after it; the whole string and the empty string when there is no
separator. -/
def split (sep : Char) : StringRef → StringRef × StringRef
  | [] => ([], [])
  | c :: cs => if c = sep then ([], cs) else (c :: (split sep cs).1, (split sep cs).2)

/-- The method `StringRef::split(Components, Separator, MaxSplit)` with
`KeepEmpty = true`: at most `MaxSplit` cuts, the last component is the
remainder. -/
def splitMax (sep : Char) : Nat → StringRef → List StringRef
  | 0, s => [s]
  | n + 1, s => if sep ∈ s then (split sep s).1 :: splitMax sep n (split sep s).2 else [s]

/-- The enumeration `llvm::Triple::ArchType`. -/
inductive ArchType where
  | UnknownArch | arm | armeb | aarch64 | aarch64_be | aarch64_32 | arc | avr
  | bpfel | bpfeb | hexagon | mips | mipsel | mips64 | mips64el | msp430
  | ppc | ppc64 | ppc64le | r600 | amdgcn | riscv32 | riscv64 | sparc | sparcv9
  | sparcel | systemz | tce | tcele | thumb | thumbeb | x86 | x86_64 | xcore
  | nvptx | nvptx64 | le32 | le64 | amdil | amdil64 | hsail | hsail64 | spir
  | spir64 | kalimba | shave | lanai | wasm32 | wasm64 | renderscript32
  | renderscript64 | ve
  deriving DecidableEq, Repr

/-- The enumeration `llvm::Triple::SubArchType`. -/
inductive SubArchType where
  | NoSubArch
  | ARMSubArch_v8_5a | ARMSubArch_v8_4a | ARMSubArch_v8_3a | ARMSubArch_v8_2a
  | ARMSubArch_v8_1a | ARMSubArch_v8 | ARMSubArch_v8r | ARMSubArch_v8m_baseline
  | ARMSubArch_v8m_mainline | ARMSubArch_v8_1m_mainline | ARMSubArch_v7
  | ARMSubArch_v7em | ARMSubArch_v7m | ARMSubArch_v7s | ARMSubArch_v7k
  | ARMSubArch_v7ve | ARMSubArch_v6 | ARMSubArch_v6m | ARMSubArch_v6k
  | ARMSubArch_v6t2 | ARMSubArch_v5 | ARMSubArch_v5te | ARMSubArch_v4t
  | KalimbaSubArch_v3 | KalimbaSubArch_v4 | KalimbaSubArch_v5
  | MipsSubArch_r6 | PPCSubArch_spe
  deriving DecidableEq, Repr

/-- The enumeration `llvm::Triple::VendorType`. -/
inductive VendorType where
  | UnknownVendor | Apple | PC | SCEI | BGP | BGQ | Freescale | IBM
  | ImaginationTechnologies | MipsTechnologies | NVIDIA | CSR | Myriad | AMD
  | Mesa | SUSE | OpenEmbedded
  deriving DecidableEq, Repr

/-- The enumeration `llvm::Triple::OSType`. -/
inductive OSType where
  | UnknownOS | Ananas | CloudABI | Darwin | DragonFly | FreeBSD | Fuchsia
  | IOS | KFreeBSD | Linux | Lv2 | MacOSX | NetBSD | OpenBSD | Solaris | Win32
  | Haiku | Minix | RTEMS | NaCl | CNK | AIX | CUDA | NVCL | AMDHSA | PS4
  | ELFIAMCU | TvOS | WatchOS | Mesa3D | Contiki | AMDPAL | HermitCore | Hurd
  | WASI | Emscripten
  deriving DecidableEq, Repr

/-- The enumeration `llvm::Triple::EnvironmentType`. -/
inductive EnvironmentType where
  | UnknownEnvironment | GNU | GNUABIN32 | GNUABI64 | GNUEABI | GNUEABIHF
  | GNUX32 | CODE16 | EABI | EABIHF | ELFv1 | ELFv2 | Android | Musl | MuslEABI
  | MuslEABIHF | MSVC | Itanium | Cygnus | CoreCLR | Simulator | MacABI
  deriving DecidableEq, Repr

/-- The enumeration `llvm::Triple::ObjectFormatType`. -/
inductive ObjectFormatType where
  | UnknownObjectFormat | COFF | ELF | MachO | Wasm | XCOFF
  deriving DecidableEq, Repr

/-- The class `llvm::Triple`: the triple's text and the fields parsed from it
(the members `Data`, `Arch`, `SubArch`, `Vendor`, `OS`, `Environment`,
`ObjectFormat`). -/
structure Triple where
  Data : StringRef
  Arch : ArchType
  SubArch : SubArchType
  Vendor : VendorType
  OS : OSType
  Environment : EnvironmentType
  ObjectFormat : ObjectFormatType
  deriving DecidableEq, Repr

/-- The class `llvm::StringSwitch` with `StartsWith` cases only: the value of
the first case whose text the string starts with, `Default` when there is
none. -/
def StringSwitch.StartsWith {T : Type} (Cases : List (StringRef × T)) (Default : T)
    (S : StringRef) : T :=
  match Cases.find? (fun c => startswith S c.1) with
  | some c => c.2
  | none => Default

/-- The `StartsWith` cases of the function `parseOS` of `Triple.cpp`, in the
order of the source. -/
def parseOSCases : List (StringRef × OSType) :=
  [
    ("ananas".toList, .Ananas),
    ("cloudabi".toList, .CloudABI),
    ("darwin".toList, .Darwin),
    ("dragonfly".toList, .DragonFly),
    ("freebsd".toList, .FreeBSD),
    ("fuchsia".toList, .Fuchsia),
    ("ios".toList, .IOS),
    ("kfreebsd".toList, .KFreeBSD),
    ("linux".toList, .Linux),
    ("lv2".toList, .Lv2),
    ("macos".toList, .MacOSX),
    ("netbsd".toList, .NetBSD),
    ("openbsd".toList, .OpenBSD),
    ("solaris".toList, .Solaris),
    ("win32".toList, .Win32),
    ("windows".toList, .Win32),
    ("haiku".toList, .Haiku),
    ("minix".toList, .Minix),
    ("rtems".toList, .RTEMS),
    ("nacl".toList, .NaCl),
    ("cnk".toList, .CNK),
    ("aix".toList, .AIX),
    ("cuda".toList, .CUDA),
    ("nvcl".toList, .NVCL),
    ("amdhsa".toList, .AMDHSA),
    ("ps4".toList, .PS4),
    ("elfiamcu".toList, .ELFIAMCU),
    ("tvos".toList, .TvOS),
    ("watchos".toList, .WatchOS),
    ("mesa3d".toList, .Mesa3D),
    ("contiki".toList, .Contiki),
    ("amdpal".toList, .AMDPAL),
    ("hermit".toList, .HermitCore),
    ("hurd".toList, .Hurd),
    ("wasi".toList, .WASI),
    ("emscripten".toList, .Emscripten) ]

/-- The function `parseOS` of `Triple.cpp`: a `StringSwitch` of `StartsWith`
cases with `Default(Triple::UnknownOS)`. -/
def parseOS (OSName : StringRef) : OSType :=
  StringSwitch.StartsWith parseOSCases .UnknownOS OSName

/-- The `StartsWith` cases of the function `parseEnvironment` of
`Triple.cpp`, in the order of the source. -/
def parseEnvironmentCases : List (StringRef × EnvironmentType) :=
  [
    ("eabihf".toList, .EABIHF),
    ("eabi".toList, .EABI),
    ("elfv1".toList, .ELFv1),
    ("elfv2".toList, .ELFv2),
    ("gnuabin32".toList, .GNUABIN32),
    ("gnuabi64".toList, .GNUABI64),
    ("gnueabihf".toList, .GNUEABIHF),
    ("gnueabi".toList, .GNUEABI),
    ("gnux32".toList, .GNUX32),
    ("code16".toList, .CODE16),
    ("gnu".toList, .GNU),
    ("android".toList, .Android),
    ("musleabihf".toList, .MuslEABIHF),
    ("musleabi".toList, .MuslEABI),
    ("musl".toList, .Musl),
    ("msvc".toList, .MSVC),
    ("itanium".toList, .Itanium),
    ("cygnus".toList, .Cygnus),
    ("coreclr".toList, .CoreCLR),
    ("simulator".toList, .Simulator),
    ("macabi".toList, .MacABI) ]

/-- The function `parseEnvironment` of `Triple.cpp`: a `StringSwitch` of
`StartsWith` cases with `Default(Triple::UnknownEnvironment)`. -/
def parseEnvironment (EnvironmentName : StringRef) : EnvironmentType :=
  StringSwitch.StartsWith parseEnvironmentCases .UnknownEnvironment EnvironmentName

/-- The function `Triple::getOSTypeName`. -/
def getOSTypeName : OSType → StringRef
  | .UnknownOS => "unknown".toList
  | .Ananas => "ananas".toList
  | .CloudABI => "cloudabi".toList
  | .Darwin => "darwin".toList
  | .DragonFly => "dragonfly".toList
  | .FreeBSD => "freebsd".toList
  | .Fuchsia => "fuchsia".toList
  | .IOS => "ios".toList
  | .KFreeBSD => "kfreebsd".toList
  | .Linux => "linux".toList
  | .Lv2 => "lv2".toList
  | .MacOSX => "macosx".toList
  | .NetBSD => "netbsd".toList
  | .OpenBSD => "openbsd".toList
  | .Solaris => "solaris".toList
  | .Win32 => "windows".toList
  | .Haiku => "haiku".toList
  | .Minix => "minix".toList
  | .RTEMS => "rtems".toList
  | .NaCl => "nacl".toList
  | .CNK => "cnk".toList
  | .AIX => "aix".toList
  | .CUDA => "cuda".toList
  | .NVCL => "nvcl".toList
  | .AMDHSA => "amdhsa".toList
  | .PS4 => "ps4".toList
  | .ELFIAMCU => "elfiamcu".toList
  | .TvOS => "tvos".toList
  | .WatchOS => "watchos".toList
  | .Mesa3D => "mesa3d".toList
  | .Contiki => "contiki".toList
  | .AMDPAL => "amdpal".toList
  | .HermitCore => "hermit".toList
  | .Hurd => "hurd".toList
  | .WASI => "wasi".toList
  | .Emscripten => "emscripten".toList

/-- The function `Triple::getEnvironmentTypeName`. -/
def getEnvironmentTypeName : EnvironmentType → StringRef
  | .UnknownEnvironment => "unknown".toList
  | .GNU => "gnu".toList
  | .GNUABIN32 => "gnuabin32".toList
  | .GNUABI64 => "gnuabi64".toList
  | .GNUEABI => "gnueabi".toList
  | .GNUEABIHF => "gnueabihf".toList
  | .GNUX32 => "gnux32".toList
  | .CODE16 => "code16".toList
  | .EABI => "eabi".toList
  | .EABIHF => "eabihf".toList
  | .ELFv1 => "elfv1".toList
  | .ELFv2 => "elfv2".toList
  | .Android => "android".toList
  | .Musl => "musl".toList
  | .MuslEABI => "musleabi".toList
  | .MuslEABIHF => "musleabihf".toList
  | .MSVC => "msvc".toList
  | .Itanium => "itanium".toList
  | .Cygnus => "cygnus".toList
  | .CoreCLR => "coreclr".toList
  | .Simulator => "simulator".toList
  | .MacABI => "macabi".toList

/-- The tables of `Triple.cpp` that `Platform.cpp` never looks into: the
parsers of the architecture, sub-architecture, vendor and object format
components, and the default object format of a triple.  They are a parameter
of the triple constructors. -/
structure ComponentTables where
  parseArch : StringRef → ArchType
  parseSubArch : StringRef → SubArchType
  parseVendor : StringRef → VendorType
  parseFormat : StringRef → ObjectFormatType
  getDefaultFormat : Triple → ObjectFormatType

namespace Triple

/-- The accessor `Triple::getArchName`: the text before the first dash. -/
def getArchName (t : Triple) : StringRef := (split '-' t.Data).1

/-- The accessor `Triple::getVendorName`: the second dash-separated component. -/
def getVendorName (t : Triple) : StringRef := (split '-' (split '-' t.Data).2).1

/-- The accessor `Triple::getOSName`: the third dash-separated component. -/
def getOSName (t : Triple) : StringRef :=
  (split '-' (split '-' (split '-' t.Data).2).2).1

/-- The accessor `Triple::getEnvironmentName`: whatever follows the third
dash. -/
def getEnvironmentName (t : Triple) : StringRef :=
  (split '-' (split '-' (split '-' t.Data).2).2).2

/-- The accessor `Triple::getArch`. -/
def getArch (t : Triple) : ArchType := t.Arch

/-- The accessor `Triple::getSubArch`. -/
def getSubArch (t : Triple) : SubArchType := t.SubArch

/-- The accessor `Triple::getVendor`. -/
def getVendor (t : Triple) : VendorType := t.Vendor

/-- The accessor `Triple::getOS`. -/
def getOS (t : Triple) : OSType := t.OS

/-- The accessor `Triple::getEnvironment`. -/
def getEnvironment (t : Triple) : EnvironmentType := t.Environment

/-- The predicate `Triple::hasEnvironment`: the environment name is not
empty. -/
def hasEnvironment (t : Triple) : Bool := t.getEnvironmentName != []

/-- The predicate `Triple::isMacOSX`: the OS is Darwin or MacOSX. -/
def isMacOSX (t : Triple) : Bool := t.getOS == .Darwin || t.getOS == .MacOSX

/-- The predicate `Triple::isTvOS`. -/
def isTvOS (t : Triple) : Bool := t.getOS == .TvOS

/-- The predicate `Triple::isiOS`: the OS is IOS, or the triple is tvOS, which
LLVM counts as a variant of iOS. -/
def isiOS (t : Triple) : Bool := t.getOS == .IOS || t.isTvOS

/-- The predicate `Triple::isWatchOS`. -/
def isWatchOS (t : Triple) : Bool := t.getOS == .WatchOS

/-- The predicate `Triple::isOSDarwin`: macOS, iOS (tvOS included) or
watchOS. -/
def isOSDarwin (t : Triple) : Bool := t.isMacOSX || t.isiOS || t.isWatchOS

/-- The predicate `Triple::isSimulatorEnvironment`. -/
def isSimulatorEnvironment (t : Triple) : Bool := t.getEnvironment == .Simulator

/-- The predicate `Triple::isMacCatalystEnvironment`. -/
def isMacCatalystEnvironment (t : Triple) : Bool := t.getEnvironment == .MacABI

/-- The predicate `Triple::isAndroid`. -/
def isAndroid (t : Triple) : Bool := t.getEnvironment == .Android

/-- The predicate `Triple::isOSLinux`. -/
def isOSLinux (t : Triple) : Bool := t.getOS == .Linux

/-- The predicate `Triple::isAArch64`: AArch64, little or big endian. -/
def isAArch64 (t : Triple) : Bool := t.getArch == .aarch64 || t.getArch == .aarch64_be

/-- The constructor `Triple(ArchStr, VendorStr, OSStr)`: the text is the three
strings joined by dashes, each field is parsed from its own argument, the
environment stays unknown and the object format is the default one. -/
def ofArchVendorOS (P : ComponentTables) (ArchStr VendorStr OSStr : StringRef) : Triple :=
  let T : Triple :=
    { Data := ArchStr ++ '-' :: (VendorStr ++ '-' :: OSStr)
      Arch := P.parseArch ArchStr
      SubArch := P.parseSubArch ArchStr
      Vendor := P.parseVendor VendorStr
      OS := parseOS OSStr
      Environment := .UnknownEnvironment
      ObjectFormat := .UnknownObjectFormat }
  { T with ObjectFormat := P.getDefaultFormat T }

/-- The constructor `Triple(ArchStr, VendorStr, OSStr, EnvironmentStr)`: the
text is the four strings joined by dashes, each field is parsed from its own
argument, the object format from the environment string, with the default
one when that gives none. -/
def ofArchVendorOSEnvironment (P : ComponentTables)
    (ArchStr VendorStr OSStr EnvironmentStr : StringRef) : Triple :=
  let T : Triple :=
    { Data := ArchStr ++ '-' :: (VendorStr ++ '-' :: (OSStr ++ '-' :: EnvironmentStr))
      Arch := P.parseArch ArchStr
      SubArch := P.parseSubArch ArchStr
      Vendor := P.parseVendor VendorStr
      OS := parseOS OSStr
      Environment := parseEnvironment EnvironmentStr
      ObjectFormat := P.parseFormat EnvironmentStr }
  if T.ObjectFormat = .UnknownObjectFormat then { T with ObjectFormat := P.getDefaultFormat T }
  else T

/-- The environment that `Triple(Str)` gives a text of one component only: a
`StringSwitch` over the MIPS architecture names. -/
def parseSingleComponentEnvironment (Component : StringRef) : EnvironmentType :=
  if startswith Component "mipsn32".toList then .GNUABIN32
  else if startswith Component "mips64".toList then .GNUABI64
  else if startswith Component "mipsisa64".toList then .GNUABI64
  else if startswith Component "mipsisa32".toList then .GNU
  else if Component = "mips".toList ∨ Component = "mipsel".toList ∨
      Component = "mipsr6".toList ∨ Component = "mipsr6el".toList then .GNU
  else .UnknownEnvironment

/-- The constructor `Triple(Str)`: the text is cut at its first three dashes
and each field is parsed from its component, as far as there are
components. -/
def ofString (P : ComponentTables) (Str : StringRef) : Triple :=
  let T : Triple :=
    match splitMax '-' 3 Str with
    | [c0] =>
      { Data := Str, Arch := P.parseArch c0, SubArch := P.parseSubArch c0,
        Vendor := .UnknownVendor, OS := .UnknownOS,
        Environment := parseSingleComponentEnvironment c0,
        ObjectFormat := .UnknownObjectFormat }
    | [c0, c1] =>
      { Data := Str, Arch := P.parseArch c0, SubArch := P.parseSubArch c0,
        Vendor := P.parseVendor c1, OS := .UnknownOS,
        Environment := .UnknownEnvironment, ObjectFormat := .UnknownObjectFormat }
    | [c0, c1, c2] =>
      { Data := Str, Arch := P.parseArch c0, SubArch := P.parseSubArch c0,
        Vendor := P.parseVendor c1, OS := parseOS c2,
        Environment := .UnknownEnvironment, ObjectFormat := .UnknownObjectFormat }
    | c0 :: c1 :: c2 :: c3 :: _ =>
      { Data := Str, Arch := P.parseArch c0, SubArch := P.parseSubArch c0,
        Vendor := P.parseVendor c1, OS := parseOS c2,
        Environment := parseEnvironment c3, ObjectFormat := P.parseFormat c3 }
    | [] =>
      { Data := Str, Arch := .UnknownArch, SubArch := .NoSubArch,
        Vendor := .UnknownVendor, OS := .UnknownOS,
        Environment := .UnknownEnvironment, ObjectFormat := .UnknownObjectFormat }
  if T.ObjectFormat = .UnknownObjectFormat then { T with ObjectFormat := P.getDefaultFormat T }
  else T

/-- The loop of `EatNumber`: consumes the leading digits of the string and
accumulates their value in an `unsigned`, so modulo `2 ^ 32`. -/
def eatDigits (Result : Nat) : StringRef → Nat × StringRef
  | [] => (Result, [])
  | c :: cs =>
    if isDigit c then eatDigits ((Result * 10 + (c.toNat - '0'.toNat)) % 2 ^ 32) cs
    else (Result, c :: cs)

/-- The function `EatNumber` of `Triple.cpp`: the value of the leading number
and the rest of the string. -/
def EatNumber (Str : StringRef) : Nat × StringRef := eatDigits 0 Str

/-- The loop of `parseVersionFromName`: reads at most `n` numbers separated
by single dots and stops at the first component that does not start with a
digit. -/
def parseVersionComponents : Nat → StringRef → List Nat
  | 0, _ => []
  | _ + 1, [] => []
  | n + 1, c :: cs =>
    if isDigit c then
      let r := EatNumber (c :: cs)
      let Name := if startswith r.2 ".".toList then r.2.drop 1 else r.2
      r.1 :: parseVersionComponents n Name
    else []

/-- The function `parseVersionFromName` of `Triple.cpp`: up to three
components, each unset one is 0. -/
def parseVersionFromName (Name : StringRef) : Nat × Nat × Nat :=
  let l := parseVersionComponents 3 Name
  (l.getD 0 0, l.getD 1 0, l.getD 2 0)

/-- The method `Triple::getOSVersion`: the version that follows the canonical
OS name in the OS component of the triple. -/
def getOSVersion (t : Triple) : Nat × Nat × Nat :=
  let OSName := t.getOSName
  let OSTypeName := getOSTypeName t.getOS
  let OSName :=
    if startswith OSName OSTypeName then OSName.drop OSTypeName.length
    else if t.getOS = .MacOSX then
      (if startswith OSName "macos".toList then OSName.drop 5 else OSName)
    else OSName
  parseVersionFromName OSName

/-- The method `Triple::getMacOSXVersion`, its three out-parameters (the
Boolean it returns is discarded by `Platform.cpp` and left out); the
`llvm_unreachable` of the `default` case is the error result.  As in
LLVM 11, `darwin20` and later are macOS 11 and later. -/
def getMacOSXVersion (t : Triple) : Except String (Nat × Nat × Nat) :=
  let v := t.getOSVersion
  let Major := v.1
  let Minor := v.2.1
  let Micro := v.2.2
  match t.getOS with
  | .Darwin =>
    -- Default to darwin8, i.e., MacOSX 10.4.
    let Major := if Major = 0 then 8 else Major
    -- Darwin version numbers are shifted by 4.
    if Major < 4 then .ok (Major, Minor, Micro)
    else if Major ≤ 19 then .ok (10, Major - 4, 0)
    else .ok ((11 + Major - 20) % 2 ^ 32, 0, 0)
  | .MacOSX =>
    -- Default to 10.4.
    if Major = 0 then .ok (10, 4, Micro)
    else .ok (Major, Minor, Micro)
  | .IOS | .TvOS | .WatchOS => .ok (10, 4, 0)
  | _ => .error "unexpected OS for Darwin triple"

/-- The method `Triple::getiOSVersion`, its three out-parameters; the two
`llvm_unreachable` cases are the error results. -/
def getiOSVersion (t : Triple) : Except String (Nat × Nat × Nat) :=
  match t.getOS with
  | .Darwin | .MacOSX => .ok (5, 0, 0)
  | .IOS | .TvOS =>
    let v := t.getOSVersion
    -- Default to 5.0 (or 7.0 for arm64).
    if v.1 = 0 then .ok (if t.getArch = .aarch64 then 7 else 5, v.2.1, v.2.2)
    else .ok v
  | .WatchOS => .error "conflicting triple info"
  | _ => .error "unexpected OS for Darwin triple"

/-- The method `Triple::getWatchOSVersion`, its three out-parameters; the two
`llvm_unreachable` cases are the error results. -/
def getWatchOSVersion (t : Triple) : Except String (Nat × Nat × Nat) :=
  match t.getOS with
  | .Darwin | .MacOSX => .ok (2, 0, 0)
  | .WatchOS =>
    let v := t.getOSVersion
    if v.1 = 0 then .ok (2, v.2.1, v.2.2) else .ok v
  | .IOS => .error "conflicting triple info"
  | _ => .error "unexpected OS for Darwin triple"

end Triple

/-- The class `llvm::VersionTuple`: a major number followed by an optional
minor, subminor and build number, in the four shapes its constructors
build. -/
inductive VersionTuple where
  | major (Major : Nat)
  | majorMinor (Major Minor : Nat)
  | majorMinorSubminor (Major Minor Subminor : Nat)
  | majorMinorSubminorBuild (Major Minor Subminor Build : Nat)
  deriving DecidableEq, Repr

namespace VersionTuple

/-- The accessor `VersionTuple::getMajor`. -/
def getMajor : VersionTuple → Nat
  | major a => a
  | majorMinor a _ => a
  | majorMinorSubminor a _ _ => a
  | majorMinorSubminorBuild a _ _ _ => a

/-- The accessor `VersionTuple::getMinor`. -/
def getMinor : VersionTuple → Option Nat
  | major _ => none
  | majorMinor _ b => some b
  | majorMinorSubminor _ b _ => some b
  | majorMinorSubminorBuild _ b _ _ => some b

/-- The accessor `VersionTuple::getSubminor`. -/
def getSubminor : VersionTuple → Option Nat
  | major _ => none
  | majorMinor _ _ => none
  | majorMinorSubminor _ _ c => some c
  | majorMinorSubminorBuild _ _ c _ => some c

/-- The accessor `VersionTuple::getBuild`. -/
def getBuild : VersionTuple → Option Nat
  | majorMinorSubminorBuild _ _ _ d => some d
  | _ => none

/-- The method `VersionTuple::withoutBuild`. -/
def withoutBuild (v : VersionTuple) : VersionTuple :=
  match v with
  | majorMinorSubminorBuild a b c _ => majorMinorSubminor a b c
  | _ => v

/-- The decimal digits of a number, as `raw_ostream` prints an `unsigned`. -/
def decimal (n : Nat) : StringRef := Nat.toDigits 10 n

/-- The method `VersionTuple::getAsString`: the components that are present,
in decimal, separated by dots. -/
def getAsString (v : VersionTuple) : StringRef :=
  decimal v.getMajor ++
  (match v.getMinor with
   | some Minor => '.' :: decimal Minor
   | none => []) ++
  (match v.getSubminor with
   | some Subminor => '.' :: decimal Subminor
   | none => []) ++
  (match v.getBuild with
   | some Build => '.' :: decimal Build
   | none => [])

end VersionTuple

/-- The function `parseFormat` of `Triple.cpp`: a `StringSwitch` of `EndsWith`
cases over the environment name. -/
def parseFormat (EnvironmentName : StringRef) : ObjectFormatType :=
  if "xcoff".toList.isSuffixOf EnvironmentName then .XCOFF
  else if "coff".toList.isSuffixOf EnvironmentName then .COFF
  else if "elf".toList.isSuffixOf EnvironmentName then .ELF
  else if "macho".toList.isSuffixOf EnvironmentName then .MachO
  else if "wasm".toList.isSuffixOf EnvironmentName then .Wasm
  else .UnknownObjectFormat

/-- An instance of the component tables for evaluating the functions on
concrete triples.  It lists the architecture and vendor names that the
examples of this file use, with the values LLVM gives them (`arm64e` as in
Apple's LLVM), and gives the unknown value on every other name. -/
def exampleTables : ComponentTables where
  parseArch := fun ArchName =>
    if ArchName = "i386".toList ∨ ArchName = "i486".toList ∨ ArchName = "i586".toList ∨
        ArchName = "i686".toList then .x86
    else if ArchName = "amd64".toList ∨ ArchName = "x86_64".toList ∨
        ArchName = "x86_64h".toList then .x86_64
    else if ArchName = "aarch64".toList ∨ ArchName = "arm64".toList ∨
        ArchName = "arm64e".toList then .aarch64
    else if ArchName = "arm".toList ∨ ArchName = "armv7".toList then .arm
    else .UnknownArch
  parseSubArch := fun ArchName =>
    if ArchName = "armv7".toList then .ARMSubArch_v7 else .NoSubArch
  parseVendor := fun VendorName =>
    if VendorName = "apple".toList then .Apple
    else if VendorName = "pc".toList then .PC
    else .UnknownVendor
  parseFormat := parseFormat
  getDefaultFormat := fun T =>
    if T.isOSDarwin then .MachO
    else if T.OS = .Win32 then .COFF
    else .ELF

/-- The class `llvm::StringMap<ValueTy>`: the entries of the map. -/
abbrev StringMap (ValueTy : Type) := List (StringRef × ValueTy)

/-- The method `StringMap::find`: the value stored under the key, `none` for
the `end()` iterator. -/
def StringMap.find {ValueTy : Type} (m : StringMap ValueTy) (Key : StringRef) : Option ValueTy :=
  List.lookup Key m

/-- The method `Triple::isOSVersionLT(Major, Minor, Micro)`: the version of
`getOSVersion` compared with the given one, component by component. -/
def Triple.isOSVersionLT (t : Triple) (Major Minor Micro : Nat) : Bool :=
  let LHS := t.getOSVersion
  if LHS.1 ≠ Major then decide (LHS.1 < Major)
  else if LHS.2.1 ≠ Minor then decide (LHS.2.1 < Minor)
  else if LHS.2.2 ≠ Micro then decide (LHS.2.2 < Micro)
  else false

end llvm

namespace clang

open llvm

/-- The structure `clang::driver::DarwinSDKInfo::SDKVersionMap`, its member
that `Platform.cpp` reads. -/
structure SDKVersionMap where
  MacOS2iOSMacMapping : StringMap VersionTuple

/-- The class `clang::driver::DarwinSDKInfo`: the SDK version and the version
maps of the SDK settings. -/
structure DarwinSDKInfo where
  Version : VersionTuple
  VersionMap : SDKVersionMap

/-- The accessor `DarwinSDKInfo::getVersion`. -/
def DarwinSDKInfo.getVersion (SDKInfo : DarwinSDKInfo) : VersionTuple := SDKInfo.Version

/-- The accessor `DarwinSDKInfo::getVersionMap`. -/
def DarwinSDKInfo.getVersionMap (SDKInfo : DarwinSDKInfo) : SDKVersionMap :=
  SDKInfo.VersionMap

end clang

namespace swift

open llvm

/-- The enumeration `swift::DarwinPlatformKind`. -/
inductive DarwinPlatformKind where
  | MacOS | IPhoneOS | IPhoneOSSimulator | TvOS | TvOSSimulator | WatchOS
  | WatchOSSimulator
  deriving DecidableEq, Repr

/-- The function `swift::tripleIsMacCatalystEnvironment`. -/
def tripleIsMacCatalystEnvironment (triple : Triple) : Bool :=
  triple.isiOS && !triple.isTvOS && triple.getEnvironment == .MacABI

/-- The function `swift::tripleIsiOSSimulator`. -/
def tripleIsiOSSimulator (triple : Triple) : Bool :=
  triple.isiOS && !tripleIsMacCatalystEnvironment triple && triple.isSimulatorEnvironment

/-- The function `swift::tripleIsAppleTVSimulator`. -/
def tripleIsAppleTVSimulator (triple : Triple) : Bool :=
  triple.isTvOS && triple.isSimulatorEnvironment

/-- The function `swift::tripleIsWatchSimulator`. -/
def tripleIsWatchSimulator (triple : Triple) : Bool :=
  triple.isWatchOS && triple.isSimulatorEnvironment

/-- The function `swift::getDarwinPlatformKind`; the final `llvm_unreachable`
is the error result. -/
def getDarwinPlatformKind (triple : Triple) : Except String DarwinPlatformKind :=
  if triple.isiOS then
    if triple.isTvOS then
      if tripleIsAppleTVSimulator triple then .ok .TvOSSimulator
      else .ok .TvOS
    else if tripleIsiOSSimulator triple then .ok .IPhoneOSSimulator
    else .ok .IPhoneOS
  else if triple.isWatchOS then
    if tripleIsWatchSimulator triple then .ok .WatchOSSimulator
    else .ok .WatchOS
  else if triple.isMacOSX then .ok .MacOS
  else .error "Unsupported Darwin platform"

/-- The function `getArchForAppleTargetSpecificModuleTriple`: a `StringSwitch`
over the architecture name. -/
def getArchForAppleTargetSpecificModuleTriple (triple : Triple) : StringRef :=
  let tripleArchName := triple.getArchName
  if tripleArchName = "arm64".toList ∨ tripleArchName = "aarch64".toList then "arm64".toList
  else if tripleArchName = "x86_64".toList ∨ tripleArchName = "amd64".toList then
    "x86_64".toList
  else if tripleArchName = "i386".toList ∨ tripleArchName = "i486".toList ∨
      tripleArchName = "i586".toList ∨ tripleArchName = "i686".toList ∨
      tripleArchName = "i786".toList ∨ tripleArchName = "i886".toList ∨
      tripleArchName = "i986".toList then "i386".toList
  else if tripleArchName = "unknown".toList ∨ tripleArchName = [] then "unknown".toList
  else tripleArchName

/-- The function `getVendorForAppleTargetSpecificModuleTriple`; its assertion
`triple.isOSDarwin()` is the argument `_h`, which every caller has to
supply. -/
def getVendorForAppleTargetSpecificModuleTriple (triple : Triple)
    (_h : triple.isOSDarwin = true) : StringRef :=
  "apple".toList

/-- The function `getOSForAppleTargetSpecificModuleTriple`: the OS name up to
its first digit, then a `StringSwitch`. -/
def getOSForAppleTargetSpecificModuleTriple (triple : Triple) : StringRef :=
  let tripleOSName := triple.getOSName
  let tripleOSNameNoVersion := take_until isDigit tripleOSName
  if tripleOSNameNoVersion = "macos".toList ∨ tripleOSNameNoVersion = "macosx".toList ∨
      tripleOSNameNoVersion = "darwin".toList then "macos".toList
  else if tripleOSNameNoVersion = "unknown".toList ∨ tripleOSNameNoVersion = [] then
    "unknown".toList
  else tripleOSNameNoVersion

/-- The function `getEnvironmentForAppleTargetSpecificModuleTriple`: a
`StringSwitch` over the environment name, `none` for `None`. -/
def getEnvironmentForAppleTargetSpecificModuleTriple (triple : Triple) : Option StringRef :=
  let tripleEnvironment := triple.getEnvironmentName
  if tripleEnvironment = "unknown".toList ∨ tripleEnvironment = [] then none
  else some tripleEnvironment

/-- The function `swift::getTargetSpecificModuleTriple`. -/
def getTargetSpecificModuleTriple (P : ComponentTables) (triple : Triple) : Triple :=
  if h : triple.isOSDarwin = true then
    let newArch := getArchForAppleTargetSpecificModuleTriple triple
    let newVendor := getVendorForAppleTargetSpecificModuleTriple triple h
    let newOS := getOSForAppleTargetSpecificModuleTriple triple
    let newEnvironment := getEnvironmentForAppleTargetSpecificModuleTriple triple
    match newEnvironment with
    | none => Triple.ofArchVendorOS P newArch newVendor newOS
    | some newEnvironment =>
      Triple.ofArchVendorOSEnvironment P newArch newVendor newOS newEnvironment
  else if triple.isAndroid then
    let environment := getEnvironmentTypeName triple.getEnvironment
    Triple.ofArchVendorOSEnvironment P triple.getArchName triple.getVendorName
      triple.getOSName environment
  else triple

/-- The function `swift::getSwiftRuntimeCompatibilityVersionForTarget`; `none`
is `None`, and an error is an `llvm_unreachable` of the LLVM version
accessors. -/
def getSwiftRuntimeCompatibilityVersionForTarget (Triple : Triple) :
    Except String (Option VersionTuple) :=
  if Triple.getArchName = "arm64e".toList then .ok (some (.majorMinor 5 3))
  else if Triple.isMacOSX then
    match Triple.getMacOSXVersion with
    | .error e => .error e
    | .ok (Major, Minor, Micro) =>
      if Major = 10 then
        if Triple.isAArch64 ∧ Minor ≤ 16 then .ok (some (.majorMinor 5 3))
        else if Minor ≤ 14 then .ok (some (.majorMinor 5 0))
        else if Minor ≤ 15 then
          if Micro ≤ 3 then .ok (some (.majorMinor 5 1))
          else .ok (some (.majorMinor 5 2))
        else .ok none
      else if Major = 11 then .ok (some (.majorMinor 5 3))
      else .ok none
  else if Triple.isiOS then
    match Triple.getiOSVersion with
    | .error e => .error e
    | .ok (Major, Minor, _) =>
      if Triple.isAArch64 ∧ Major ≤ 14 ∧
          (Triple.isSimulatorEnvironment ∨ Triple.isMacCatalystEnvironment) then
        .ok (some (.majorMinor 5 3))
      else if Major ≤ 12 then .ok (some (.majorMinor 5 0))
      else if Major ≤ 13 then
        if Minor ≤ 3 then .ok (some (.majorMinor 5 1))
        else .ok (some (.majorMinor 5 2))
      else .ok none
  else if Triple.isWatchOS then
    match Triple.getWatchOSVersion with
    | .error e => .error e
    | .ok (Major, Minor, _) =>
      if Major ≤ 5 then .ok (some (.majorMinor 5 0))
      else if Major ≤ 6 then
        if Minor ≤ 1 then .ok (some (.majorMinor 5 1))
        else .ok (some (.majorMinor 5 2))
      else .ok none
  else .ok none

/-- The function `remapVersion`; `none` is `None`.  The dereference
`*version.getMinor()` is the `some` case of the inner match; its `none` case
is never reached, since a version with a subminor has a minor. -/
def remapVersion (versionMap : StringMap VersionTuple) (version : VersionTuple) :
    Option VersionTuple :=
  -- The build number is never used in the lookup.
  let version := version.withoutBuild
  -- Look for this specific version.
  match versionMap.find version.getAsString with
  | some known => some known
  | none =>
    -- If an extra ".0" was specified (in the subminor version), drop that
    -- and look again.
    if version.getSubminor = none ∨ version.getSubminor ≠ some 0 then none
    else
      match version.getMinor with
      | none => none
      | some Minor =>
        let version := VersionTuple.majorMinor version.getMajor Minor
        match versionMap.find version.getAsString with
        | some known => some known
        | none =>
          -- If another extra ".0" was specified (in the minor version), drop
          -- that and look again.
          if version.getMinor = none ∨ version.getMinor ≠ some 0 then none
          else
            let version := VersionTuple.major version.getMajor
            match versionMap.find version.getAsString with
            | some known => some known
            | none => none

/-- The function `swift::tripleInfersSimulatorEnvironment`. -/
def tripleInfersSimulatorEnvironment (triple : Triple) : Bool :=
  match triple.getOS with
  | .IOS | .TvOS | .WatchOS =>
    !triple.hasEnvironment &&
      (triple.getArch == .x86 || triple.getArch == .x86_64) &&
      !tripleIsMacCatalystEnvironment triple
  | _ => false

/-- The function `swift::triplesAreValidForZippering`. -/
def triplesAreValidForZippering (target targetVariant : Triple) : Bool :=
  -- The arch and vendor must match.
  if target.getArchName ≠ targetVariant.getArchName ∨
      target.getArch ≠ targetVariant.getArch ∨
      target.getSubArch ≠ targetVariant.getSubArch ∨
      target.getVendor ≠ targetVariant.getVendor then false
  -- Allow a macOS target and an iOS-macabi target variant.
  else if target.isMacOSX ∧ tripleIsMacCatalystEnvironment targetVariant then true
  -- Allow an iOS-macabi target and a macOS target variant.
  else if targetVariant.isMacOSX ∧ tripleIsMacCatalystEnvironment target then true
  else false

/-- The function `swift::tripleRequiresRPathForSwiftInOS`. -/
def tripleRequiresRPathForSwiftInOS (triple : Triple) : Bool :=
  if triple.isMacOSX then false
  else if triple.isiOS then triple.isOSVersionLT 12 2 0
  else if triple.isWatchOS then triple.isOSVersionLT 5 2 0
  -- Other platforms do not have Swift installed as part of the OS by default.
  else false

/-- The function `getPlatformNameForDarwin`; the `switch` covers the seven
kinds, so the `llvm_unreachable` behind it is never reached. -/
def getPlatformNameForDarwin (platform : DarwinPlatformKind) : StringRef :=
  match platform with
  | .MacOS => "macosx".toList
  | .IPhoneOS => "iphoneos".toList
  | .IPhoneOSSimulator => "iphonesimulator".toList
  | .TvOS => "appletvos".toList
  | .TvOSSimulator => "appletvsimulator".toList
  | .WatchOS => "watchos".toList
  | .WatchOSSimulator => "watchsimulator".toList

/-- The function `swift::getPlatformNameForTriple`; its `llvm_unreachable`
calls are the error results.  The `switch` has a case for each of the 36
values of `OSType`, so the `llvm_unreachable` behind it is never reached. -/
def getPlatformNameForTriple (triple : Triple) : Except String StringRef :=
  match triple.getOS with
  | .UnknownOS => .error "unknown OS"
  | .Ananas | .CloudABI | .DragonFly | .Emscripten | .Fuchsia | .KFreeBSD | .Lv2
  | .NetBSD | .Solaris | .Minix | .RTEMS | .NaCl | .CNK | .AIX | .CUDA | .NVCL
  | .AMDHSA | .ELFIAMCU | .Mesa3D | .Contiki | .AMDPAL | .HermitCore | .Hurd =>
    .ok []
  | .Darwin | .MacOSX | .IOS | .TvOS | .WatchOS =>
    match getDarwinPlatformKind triple with
    | .ok platform => .ok (getPlatformNameForDarwin platform)
    | .error e => .error e
  | .Linux => .ok (if triple.isAndroid then "android".toList else "linux".toList)
  | .FreeBSD => .ok "freebsd".toList
  | .OpenBSD => .ok "openbsd".toList
  | .Win32 =>
    match triple.getEnvironment with
    | .Cygnus => .ok "cygwin".toList
    | .GNU => .ok "mingw".toList
    | .MSVC | .Itanium => .ok "windows".toList
    | _ => .error "unsupported Windows environment"
  | .PS4 => .ok "ps4".toList
  | .Haiku => .ok "haiku".toList
  | .WASI => .ok "wasi".toList

/-- The function `swift::getMajorArchitectureName`. -/
def getMajorArchitectureName (Triple : Triple) : StringRef :=
  if Triple.isOSLinux then
    match Triple.getSubArch with
    | .ARMSubArch_v7 => "armv7".toList
    | .ARMSubArch_v6 => "armv6".toList
    | _ => Triple.getArchName
  else Triple.getArchName

/-- The function `swift::getUnversionedTriple`; the test
`triple.getEnvironment()` is true for every environment but the unknown
one. -/
def getUnversionedTriple (P : ComponentTables) (triple : Triple) : Triple :=
  let unversionedOSName := take_until isDigit triple.getOSName
  if triple.getEnvironment ≠ .UnknownEnvironment then
    let environment := getEnvironmentTypeName triple.getEnvironment
    Triple.ofArchVendorOSEnvironment P triple.getArchName triple.getVendorName
      unversionedOSName environment
  else
    Triple.ofArchVendorOS P triple.getArchName triple.getVendorName unversionedOSName

/-- The function `swift::getTargetSDKVersion`. -/
def getTargetSDKVersion (SDKInfo : clang.DarwinSDKInfo) (triple : Triple) : VersionTuple :=
  -- Retrieve the SDK version.
  let SDKVersion := SDKInfo.getVersion
  -- For the Mac Catalyst environment, map the macOS SDK version to the
  -- corresponding iOS version number.
  if tripleIsMacCatalystEnvironment triple then
    (remapVersion SDKInfo.getVersionMap.MacOS2iOSMacMapping SDKVersion).getD
      (.majorMinorSubminor 0 0 0)
  else SDKVersion

end swift


/-! ## Definitions in the specification's words -/

namespace swift

open llvm

/-- The alias table of the architecture component, in the specification's
words: `arm64` and `aarch64` give `arm64`; `x86_64` and `amd64` give
`x86_64`; `i386` to `i986` give `i386`; `unknown` and the empty name give
`unknown`; every other name is unchanged. -/
def specArchAlias (arch : StringRef) : StringRef :=
  if arch ∈ ["arm64".toList, "aarch64".toList] then "arm64".toList
  else if arch ∈ ["x86_64".toList, "amd64".toList] then "x86_64".toList
  else if arch ∈ ["i386".toList, "i486".toList, "i586".toList, "i686".toList,
      "i786".toList, "i886".toList, "i986".toList] then "i386".toList
  else if arch ∈ ["unknown".toList, []] then "unknown".toList
  else arch

/-- The OS component, in the specification's words: the OS name cut before
its first ASCII digit, then `macos`, `macosx` and `darwin` give `macos`,
`unknown` and the empty name give `unknown`, every other name is
unchanged. -/
def specOSAlias (os : StringRef) : StringRef :=
  let truncated := os.takeWhile (fun c => ¬ ('0' ≤ c ∧ c ≤ '9'))
  if truncated ∈ ["macos".toList, "macosx".toList, "darwin".toList] then "macos".toList
  else if truncated ∈ ["unknown".toList, []] then "unknown".toList
  else truncated

/-- The environment component, in the specification's words: absent when the
environment name is empty or `unknown`, the name unchanged otherwise. -/
def specEnvironment (environment : StringRef) : Option StringRef :=
  if environment = [] ∨ environment = "unknown".toList then none else some environment

/-- The text of the rebuilt triple, in the specification's words: the
architecture, the vendor `apple`, the OS and, when present, the environment,
joined by dashes. -/
def specModuleTripleText (t : Triple) : StringRef :=
  ['-'].intercalate
    ([specArchAlias t.getArchName, "apple".toList, specOSAlias t.getOSName] ++
      (specEnvironment t.getEnvironmentName).toList)

/-- The order of versions in the specification's words: lexicographic on
major, minor, micro. -/
abbrev versionLT (v w : Nat × Nat × Nat) : Prop :=
  v.1 < w.1 ∨ (v.1 = w.1 ∧ (v.2.1 < w.2.1 ∨ (v.2.1 = w.2.1 ∧ v.2.2 < w.2.2)))

/-- The rule of the specification for the environment of an Android triple:
the name with its trailing ASCII digits, the API level, removed. -/
def dropTrailingDigits (name : StringRef) : StringRef :=
  (name.reverse.dropWhile (fun c => decide ('0' ≤ c ∧ c ≤ '9'))).reverse

/-- The 23 OS families for which `getPlatformNameForTriple` has no platform
name, as the specification lists them. -/
def platformlessOSTypes : List OSType :=
  [.Ananas, .CloudABI, .DragonFly, .Emscripten, .Fuchsia, .KFreeBSD, .Lv2, .NetBSD,
    .Solaris, .Minix, .RTEMS, .NaCl, .CNK, .AIX, .CUDA, .NVCL, .AMDHSA, .ELFIAMCU, .Mesa3D,
    .Contiki, .AMDPAL, .HermitCore, .Hurd]

end swift

/-! ## Concrete inputs -/

namespace swift

open llvm

/-- The triple `arm64-apple-tvos13.0-simulator`. -/
def tvOSSimulatorTriple : Triple :=
  Triple.ofString exampleTables "arm64-apple-tvos13.0-simulator".toList

/-- The triple `arm64e-apple-ios14.0`. -/
def arm64eTriple : Triple :=
  Triple.ofString exampleTables "arm64e-apple-ios14.0".toList

/-- The triple `arm64-apple-ios14.0`. -/
def arm64Triple : Triple :=
  Triple.ofString exampleTables "arm64-apple-ios14.0".toList

/-- The triple `amd64-apple-macosx10.15`. -/
def amd64Triple : Triple :=
  Triple.ofString exampleTables "amd64-apple-macosx10.15".toList

/-- The triple `x86_64-apple-macosx10.15`. -/
def x86_64Triple : Triple :=
  Triple.ofString exampleTables "x86_64-apple-macosx10.15".toList

/-- The triple `amd64-unknown-macosx10.15.4-macabi`. -/
def catalystExampleTriple : Triple :=
  Triple.ofString exampleTables "amd64-unknown-macosx10.15.4-macabi".toList

/-- The triple `armv7-unknown-linux-androideabi21`. -/
def androidEabiTriple : Triple :=
  Triple.ofString exampleTables "armv7-unknown-linux-androideabi21".toList

/-- The triple `aarch64-unknown-linux-android21`. -/
def android21Triple : Triple :=
  Triple.ofString exampleTables "aarch64-unknown-linux-android21".toList

/-- The triple `x86_64-unknown-freebsd-android21`. -/
def freebsdAndroidTriple : Triple :=
  Triple.ofString exampleTables "x86_64-unknown-freebsd-android21".toList

/-- The triple `x86_64-unknown-linux-gnu`. -/
def linuxGnuTriple : Triple :=
  Triple.ofString exampleTables "x86_64-unknown-linux-gnu".toList

/-- The triple `armv7-unknown-linux-gnueabihf`. -/
def armv7LinuxTriple : Triple :=
  Triple.ofString exampleTables "armv7-unknown-linux-gnueabihf".toList

/-- The triple `armv7l-unknown-linux-gnueabihf`, with the fields LLVM parses
from it. -/
def armv7lLinuxTriple : Triple :=
  { Data := "armv7l-unknown-linux-gnueabihf".toList
    Arch := .arm
    SubArch := .ARMSubArch_v7
    Vendor := .UnknownVendor
    OS := .Linux
    Environment := .GNUEABIHF
    ObjectFormat := .ELF }

/-- The triple `armv7l-unknown-freebsd-gnueabihf`, with the fields LLVM parses
from it. -/
def armv7lFreeBSDTriple : Triple :=
  { Data := "armv7l-unknown-freebsd-gnueabihf".toList
    Arch := .arm
    SubArch := .ARMSubArch_v7
    Vendor := .UnknownVendor
    OS := .FreeBSD
    Environment := .GNUEABIHF
    ObjectFormat := .ELF }

/-- The triple `x86_64-apple-ios13.0`. -/
def x86_64iOSTriple : Triple :=
  Triple.ofString exampleTables "x86_64-apple-ios13.0".toList

/-- The triple `x86_64-apple-darwin19.6.0`. -/
def darwin19Triple : Triple :=
  Triple.ofString exampleTables "x86_64-apple-darwin19.6.0".toList

/-- The triple `arm64-apple-tvos12.0`. -/
def tvOS12Triple : Triple :=
  Triple.ofString exampleTables "arm64-apple-tvos12.0".toList

/-- The triple `arm64-apple-ios13.4-simulator`. -/
def iOSSimulatorTriple : Triple :=
  Triple.ofString exampleTables "arm64-apple-ios13.4-simulator".toList

/-- The triple `armv7k-apple-watchos6.2`. -/
def watchOSTriple : Triple :=
  Triple.ofString exampleTables "armv7k-apple-watchos6.2".toList

/-- The triple `x86_64-apple-ios13.0-macabi`. -/
def x86_64CatalystTriple : Triple :=
  Triple.ofString exampleTables "x86_64-apple-ios13.0-macabi".toList

/-- The triple `arm64-apple-ios13.0-macabi`. -/
def arm64CatalystTriple : Triple :=
  Triple.ofString exampleTables "arm64-apple-ios13.0-macabi".toList

/-- An SDK of version 10.15 whose macOS-to-Catalyst map is `10.15 -> 13.1`. -/
def exampleSDKInfo : clang.DarwinSDKInfo :=
  { Version := .majorMinor 10 15
    VersionMap := { MacOS2iOSMacMapping := [("10.15".toList, .majorMinor 13 1)] } }

/-- An SDK of version 10.15 whose macOS-to-Catalyst map is empty. -/
def unmappedSDKInfo : clang.DarwinSDKInfo :=
  { Version := .majorMinor 10 15
    VersionMap := { MacOS2iOSMacMapping := [] } }

/-- The version map with the single entry `10.15 -> 5.2`. -/
def exampleVersionMap : StringMap VersionTuple :=
  [("10.15".toList, .majorMinor 5 2)]

/-- The version map with the single entry `10 -> 5.2`. -/
def majorOnlyVersionMap : StringMap VersionTuple :=
  [("10".toList, .majorMinor 5 2)]

end swift

/-! ## Theorems -/

namespace llvm

/-- The first part of a `split` holds no separator. -/
theorem split_fst_not_mem (sep : Char) (s : StringRef) : sep ∉ (split sep s).1 := by
  induction s with
  | nil => simp [split]
  | cons c cs ih =>
    by_cases h : c = sep
    · simp [split, h]
    · simp only [split, h, if_false, List.mem_cons, not_or]
      exact ⟨fun e => h e.symm, ih⟩

/-- A string without the separator is its own first part. -/
theorem split_of_not_mem (sep : Char) (s : StringRef) (h : sep ∉ s) :
    split sep s = (s, []) := by
  induction s with
  | nil => simp [split]
  | cons c cs ih =>
    simp only [List.mem_cons, not_or] at h
    have hc : ¬ c = sep := fun e => h.1 e.symm
    simp [split, hc, ih h.2]

/-- Splitting `a ++ sep :: b` at the first separator gives `a` and `b` when `a` holds no separator. -/
theorem split_append_sep (sep : Char) (a b : StringRef) (h : sep ∉ a) :
    split sep (a ++ sep :: b) = (a, b) := by
  induction a with
  | nil => simp [split]
  | cons c cs ih =>
    simp only [List.mem_cons, not_or] at h
    have hc : ¬ c = sep := fun e => h.1 e.symm
    simp [split, hc, ih h.2]

/-- The method `take_until` is `List.takeWhile` of the negated test. -/
theorem take_until_eq_takeWhile (F : Char → Bool) (s : StringRef) :
    take_until F s = s.takeWhile (fun c => !F c) := by
  induction s with
  | nil => simp [take_until]
  | cons d ds ih =>
    by_cases hF : F d = true
    · simp [take_until, hF, List.takeWhile]
    · simp [take_until, hF, List.takeWhile, ih]

/-- The component names of a triple whose text is three dash-free strings joined by dashes. -/
theorem Triple.names_of_three (t : Triple) (a v o : StringRef)
    (hD : t.Data = a ++ '-' :: (v ++ '-' :: o))
    (ha : '-' ∉ a) (hv : '-' ∉ v) (ho : '-' ∉ o) :
    t.getArchName = a ∧ t.getVendorName = v ∧ t.getOSName = o ∧
      t.getEnvironmentName = [] := by
  simp [Triple.getArchName, Triple.getVendorName, Triple.getOSName,
    Triple.getEnvironmentName, hD, split_append_sep _ _ _ ha, split_append_sep _ _ _ hv,
    split_of_not_mem _ _ ho]

/-- The component names of a triple whose text is three dash-free strings and an environment joined by dashes. -/
theorem Triple.names_of_four (t : Triple) (a v o e : StringRef)
    (hD : t.Data = a ++ '-' :: (v ++ '-' :: (o ++ '-' :: e)))
    (ha : '-' ∉ a) (hv : '-' ∉ v) (ho : '-' ∉ o) :
    t.getArchName = a ∧ t.getVendorName = v ∧ t.getOSName = o ∧
      t.getEnvironmentName = e := by
  simp [Triple.getArchName, Triple.getVendorName, Triple.getOSName,
    Triple.getEnvironmentName, hD, split_append_sep _ _ _ ha, split_append_sep _ _ _ hv,
    split_append_sep _ _ _ ho]

/-- The text and the parsed fields of the four-argument constructor. -/
theorem Triple.ofArchVendorOSEnvironment_fields (P : ComponentTables) (a v o e : StringRef) :
    (Triple.ofArchVendorOSEnvironment P a v o e).Data =
        a ++ '-' :: (v ++ '-' :: (o ++ '-' :: e)) ∧
    (Triple.ofArchVendorOSEnvironment P a v o e).Arch = P.parseArch a ∧
    (Triple.ofArchVendorOSEnvironment P a v o e).SubArch = P.parseSubArch a ∧
    (Triple.ofArchVendorOSEnvironment P a v o e).Vendor = P.parseVendor v ∧
    (Triple.ofArchVendorOSEnvironment P a v o e).OS = parseOS o ∧
    (Triple.ofArchVendorOSEnvironment P a v o e).Environment = parseEnvironment e := by
  unfold Triple.ofArchVendorOSEnvironment
  simp only
  split_ifs <;> simp

/-- A `StartsWith` switch returns the value of a case whose text starts the string, or the default. -/
theorem StringSwitch.StartsWith_cases {T : Type} (Cases : List (StringRef × T)) (Default : T)
    (S : StringRef) :
    (∃ c ∈ Cases, startswith S c.1 = true ∧ StringSwitch.StartsWith Cases Default S = c.2) ∨
    StringSwitch.StartsWith Cases Default S = Default := by
  unfold StringSwitch.StartsWith
  cases hf : Cases.find? (fun c => startswith S c.1) with
  | none => exact Or.inr rfl
  | some c =>
    refine Or.inl ⟨c, List.mem_of_find?_eq_some hf, ?_, rfl⟩
    simpa using List.find?_some hf

/-- The predicate `isOSDarwin` holds on the five OS values Darwin, MacOSX, IOS, TvOS, WatchOS. -/
theorem Triple.isOSDarwin_iff (t : Triple) :
    t.isOSDarwin = true ↔
      (t.OS = .Darwin ∨ t.OS = .MacOSX ∨ t.OS = .IOS ∨ t.OS = .TvOS ∨ t.OS = .WatchOS) := by
  simp only [Triple.isOSDarwin, Triple.isMacOSX, Triple.isiOS, Triple.isTvOS,
    Triple.isWatchOS, Triple.getOS, Bool.or_eq_true, beq_iff_eq]
  tauto

/-- An OS name that `parseOS` maps to a Darwin-family OS starts with one of the five Darwin-family names. -/
theorem parseOS_darwin_family (o : StringRef)
    (h : parseOS o = .Darwin ∨ parseOS o = .MacOSX ∨ parseOS o = .IOS ∨ parseOS o = .TvOS ∨
      parseOS o = .WatchOS) :
    ∃ p r, o = p ++ r ∧
      (p = "darwin".toList ∨ p = "macos".toList ∨ p = "ios".toList ∨ p = "tvos".toList ∨
        p = "watchos".toList) := by
  rcases StringSwitch.StartsWith_cases parseOSCases .UnknownOS o with ⟨c, hc, hs, hv⟩ | hd
  · have key : ∀ e ∈ parseOSCases,
        (e.2 = OSType.Darwin ∨ e.2 = OSType.MacOSX ∨ e.2 = OSType.IOS ∨ e.2 = OSType.TvOS ∨
          e.2 = OSType.WatchOS) →
        (e.1 = "darwin".toList ∨ e.1 = "macos".toList ∨ e.1 = "ios".toList ∨
          e.1 = "tvos".toList ∨ e.1 = "watchos".toList) := by decide
    have hp := key c hc (by rw [← hv]; exact h)
    obtain ⟨r, hr⟩ := List.isPrefixOf_iff_prefix.mp hs
    exact ⟨c.1, r, hr.symm, hp⟩
  · rw [parseOS, hd] at h
    simp at h

/-- The text of a parsed triple is the parsed string. -/
theorem Triple.ofString_Data (P : ComponentTables) (s : StringRef) :
    (Triple.ofString P s).Data = s := by
  unfold Triple.ofString
  simp only
  split_ifs <;> (split <;> rfl)

/-- The OS of a parsed triple is what `parseOS` gives on its OS name. -/
theorem Triple.ofString_OS (P : ComponentTables) (s : StringRef) :
    (Triple.ofString P s).OS = parseOS (Triple.ofString P s).getOSName := by
  have hD := Triple.ofString_Data P s
  have hname : (Triple.ofString P s).getOSName =
      (split '-' (split '-' (split '-' s).2).2).1 := by
    rw [Triple.getOSName, hD]
  rw [hname]
  have hempty : parseOS [] = .UnknownOS := by decide
  have hOS : (Triple.ofString P s).OS =
      (match splitMax '-' 3 s with
        | [_, _, c2] => parseOS c2
        | _ :: _ :: c2 :: _ :: _ => parseOS c2
        | _ => .UnknownOS) := by
    unfold Triple.ofString
    generalize splitMax '-' 3 s = l
    rcases l with _ | ⟨c0, _ | ⟨c1, _ | ⟨c2, _ | ⟨c3, tl⟩⟩⟩⟩ <;> simp only <;>
      split_ifs <;> rfl
  rw [hOS]
  by_cases h0 : '-' ∈ s
  · by_cases h1 : '-' ∈ (split '-' s).2
    · by_cases h2 : '-' ∈ (split '-' (split '-' s).2).2
      · simp [splitMax, h0, h1, h2]
      · simp [splitMax, h0, h1, h2, split_of_not_mem _ _ h2]
    · simp [splitMax, h0, h1, split_of_not_mem _ _ h1, split, hempty]
  · simp [splitMax, h0, split_of_not_mem _ _ h0, split, hempty]

end llvm

namespace swift

open llvm

/-- The architecture switch of the source is the alias table of the specification. -/
theorem getArchForApple_eq_spec (t : Triple) :
    getArchForAppleTargetSpecificModuleTriple t = specArchAlias t.getArchName := by
  simp [getArchForAppleTargetSpecificModuleTriple, specArchAlias]

/-- The OS switch of the source is the OS aliasing of the specification. -/
theorem getOSForApple_eq_spec (t : Triple) :
    getOSForAppleTargetSpecificModuleTriple t = specOSAlias t.getOSName := by
  have h : take_until isDigit t.getOSName =
      t.getOSName.takeWhile (fun c => ¬ ('0' ≤ c ∧ c ≤ '9')) := by
    rw [take_until_eq_takeWhile]
    congr 1
    funext c
    by_cases h1 : '0' ≤ c <;> by_cases h2 : c ≤ '9' <;> simp [isDigit, h1, h2]
  simp [getOSForAppleTargetSpecificModuleTriple, specOSAlias, h]

/-- The environment switch of the source is the environment rule of the specification. -/
theorem getEnvironmentForApple_eq_spec (t : Triple) :
    getEnvironmentForAppleTargetSpecificModuleTriple t =
      specEnvironment t.getEnvironmentName := by
  simp only [getEnvironmentForAppleTargetSpecificModuleTriple, specEnvironment]
  by_cases h1 : t.getEnvironmentName = []
  · simp [h1]
  · by_cases h2 : t.getEnvironmentName = "unknown".toList
    · simp [h2]
    · simp [h1, h2]

/-- The alias table puts no dash into a dash-free architecture name. -/
theorem specArchAlias_not_mem (a : StringRef) (h : '-' ∉ a) : '-' ∉ specArchAlias a := by
  unfold specArchAlias
  split_ifs
  · decide
  · decide
  · decide
  · decide
  · exact h

/-- The OS aliasing puts no dash into a dash-free OS name. -/
theorem specOSAlias_not_mem (o : StringRef) (h : '-' ∉ o) : '-' ∉ specOSAlias o := by
  unfold specOSAlias
  simp only
  split_ifs
  · decide
  · decide
  · intro hm
    exact h (List.takeWhile_subset _ hm)

/-- On a Darwin-family triple the module triple is built by one of the two constructors from the aliased components. -/
theorem getTargetSpecificModuleTriple_of_darwin (P : ComponentTables) (t : Triple)
    (h : t.isOSDarwin = true) :
    getTargetSpecificModuleTriple P t =
      match specEnvironment t.getEnvironmentName with
      | none => Triple.ofArchVendorOS P (specArchAlias t.getArchName) "apple".toList
          (specOSAlias t.getOSName)
      | some e => Triple.ofArchVendorOSEnvironment P (specArchAlias t.getArchName)
          "apple".toList (specOSAlias t.getOSName) e := by
  unfold getTargetSpecificModuleTriple
  rw [dif_pos h]
  simp only [getArchForApple_eq_spec, getOSForApple_eq_spec, getEnvironmentForApple_eq_spec,
    getVendorForAppleTargetSpecificModuleTriple]

/-- A present environment component is the environment name, which is neither empty nor `unknown`. -/
theorem specEnvironment_eq_some (e x : StringRef) (h : specEnvironment e = some x) :
    x = e ∧ e ≠ [] ∧ e ≠ "unknown".toList := by
  unfold specEnvironment at h
  split_ifs at h with hc
  simp only [Option.some.injEq] at h
  simp only [not_or] at hc
  exact ⟨h.symm, hc.1, hc.2⟩

/-- An absent environment component comes from an empty or `unknown` environment name. -/
theorem specEnvironment_eq_none (e : StringRef) (h : specEnvironment e = none) :
    e = [] ∨ e = "unknown".toList := by
  unfold specEnvironment at h
  split_ifs at h with hc
  exact hc

/-- The text, component names and parsed fields of the module triple of a Darwin-family triple. -/
theorem getTargetSpecificModuleTriple_darwin_fields (P : ComponentTables) (t : Triple)
    (h : t.isOSDarwin = true) :
    (getTargetSpecificModuleTriple P t).Data = specModuleTripleText t ∧
    (getTargetSpecificModuleTriple P t).getArchName = specArchAlias t.getArchName ∧
    (getTargetSpecificModuleTriple P t).getVendorName = "apple".toList ∧
    (getTargetSpecificModuleTriple P t).getOSName = specOSAlias t.getOSName ∧
    ((getTargetSpecificModuleTriple P t).hasEnvironment = true ↔
      (t.getEnvironmentName ≠ [] ∧ t.getEnvironmentName ≠ "unknown".toList)) ∧
    ((getTargetSpecificModuleTriple P t).hasEnvironment = true →
      (getTargetSpecificModuleTriple P t).getEnvironmentName = t.getEnvironmentName) ∧
    (getTargetSpecificModuleTriple P t).Arch = P.parseArch (specArchAlias t.getArchName) ∧
    (getTargetSpecificModuleTriple P t).SubArch =
      P.parseSubArch (specArchAlias t.getArchName) ∧
    (getTargetSpecificModuleTriple P t).Vendor = P.parseVendor "apple".toList ∧
    (getTargetSpecificModuleTriple P t).OS = parseOS (specOSAlias t.getOSName) ∧
    (getTargetSpecificModuleTriple P t).Environment =
      (match specEnvironment t.getEnvironmentName with
       | none => .UnknownEnvironment
       | some e => parseEnvironment e) := by
  have ha : '-' ∉ specArchAlias t.getArchName :=
    specArchAlias_not_mem _ (split_fst_not_mem '-' _)
  have ho : '-' ∉ specOSAlias t.getOSName :=
    specOSAlias_not_mem _ (split_fst_not_mem '-' _)
  have hv : '-' ∉ "apple".toList := by decide
  rw [getTargetSpecificModuleTriple_of_darwin P t h]
  cases hE : specEnvironment t.getEnvironmentName with
  | none =>
    have hn := specEnvironment_eq_none _ hE
    simp only
    obtain ⟨h1, h2, h3, h4⟩ := Triple.names_of_three
      (Triple.ofArchVendorOS P (specArchAlias t.getArchName) "apple".toList
        (specOSAlias t.getOSName)) _ _ _ rfl ha hv ho
    refine ⟨?_, h1, h2, h3, ?_, ?_, rfl, rfl, rfl, rfl, rfl⟩
    · simp [specModuleTripleText, hE, Triple.ofArchVendorOS, List.intercalate]
    · rw [Triple.hasEnvironment, h4]
      constructor
      · intro hh
        exact absurd hh (by decide)
      · intro hh
        rcases hn with hn | hn
        · exact absurd hn hh.1
        · exact absurd hn hh.2
    · intro hh
      rw [Triple.hasEnvironment, h4] at hh
      exact absurd hh (by decide)
  | some e =>
    obtain ⟨he, hne1, hne2⟩ := specEnvironment_eq_some _ _ hE
    subst he
    simp only
    obtain ⟨f1, f2, f3, f4, f5, f6⟩ := Triple.ofArchVendorOSEnvironment_fields P
      (specArchAlias t.getArchName) "apple".toList (specOSAlias t.getOSName)
      t.getEnvironmentName
    obtain ⟨h1, h2, h3, h4⟩ := Triple.names_of_four
      (Triple.ofArchVendorOSEnvironment P (specArchAlias t.getArchName) "apple".toList
        (specOSAlias t.getOSName) t.getEnvironmentName) _ _ _ _ f1 ha hv ho
    refine ⟨?_, h1, h2, h3, ?_, ?_, f2, f3, f4, f5, f6⟩
    · rw [f1]
      simp [specModuleTripleText, hE, List.intercalate]
    · rw [Triple.hasEnvironment, h4]
      constructor
      · intro _
        exact ⟨hne1, hne2⟩
      · intro _
        simpa using hne1
    · intro _
      exact h4

/-- The alias table is idempotent. -/
theorem specArchAlias_idem (a : StringRef) :
    specArchAlias (specArchAlias a) = specArchAlias a := by
  by_cases h1 : a ∈ ["arm64".toList, "aarch64".toList]
  · have : specArchAlias a = "arm64".toList := by simp only [specArchAlias, h1, if_true]
    rw [this]; decide
  · by_cases h2 : a ∈ ["x86_64".toList, "amd64".toList]
    · have : specArchAlias a = "x86_64".toList := by
        simp only [specArchAlias, h1, h2, if_true, if_false]
      rw [this]; decide
    · by_cases h3 : a ∈ ["i386".toList, "i486".toList, "i586".toList, "i686".toList,
          "i786".toList, "i886".toList, "i986".toList]
      · have : specArchAlias a = "i386".toList := by
          simp only [specArchAlias, h1, h2, h3, if_true, if_false]
        rw [this]; decide
      · by_cases h4 : a ∈ ["unknown".toList, []]
        · have : specArchAlias a = "unknown".toList := by
            simp only [specArchAlias, h1, h2, h3, h4, if_true, if_false]
          rw [this]; decide
        · have : specArchAlias a = a := by
            simp only [specArchAlias, h1, h2, h3, h4, if_false]
          rw [this, this]

/-- The OS aliasing is idempotent. -/
theorem specOSAlias_idem (o : StringRef) :
    specOSAlias (specOSAlias o) = specOSAlias o := by
  by_cases h1 : o.takeWhile (fun c => ¬ ('0' ≤ c ∧ c ≤ '9')) ∈
      ["macos".toList, "macosx".toList, "darwin".toList]
  · have : specOSAlias o = "macos".toList := by simp only [specOSAlias, h1, if_true]
    rw [this]; decide
  · by_cases h2 : o.takeWhile (fun c => ¬ ('0' ≤ c ∧ c ≤ '9')) ∈ ["unknown".toList, []]
    · have : specOSAlias o = "unknown".toList := by
        simp only [specOSAlias, h1, h2, if_true, if_false]
      rw [this]; decide
    · have h3 : specOSAlias o = o.takeWhile (fun c => ¬ ('0' ≤ c ∧ c ≤ '9')) := by
        simp only [specOSAlias, h1, h2, if_false]
      rw [h3]
      have h4 : (o.takeWhile (fun c => ¬ ('0' ≤ c ∧ c ≤ '9'))).takeWhile
          (fun c => ¬ ('0' ≤ c ∧ c ≤ '9')) = o.takeWhile (fun c => ¬ ('0' ≤ c ∧ c ≤ '9')) := by
        rw [List.takeWhile_takeWhile]
        congr 1
        funext c
        by_cases h1 : '0' ≤ c <;> by_cases h2 : c ≤ '9' <;> simp [h1, h2]
      simp only [specOSAlias, h4, h1, h2, if_false]

/-- The OS aliasing keeps a Darwin-family OS name Darwin-family. -/
theorem parseOS_specOSAlias_darwin_family (o : StringRef)
    (h : parseOS o = .Darwin ∨ parseOS o = .MacOSX ∨ parseOS o = .IOS ∨ parseOS o = .TvOS ∨
      parseOS o = .WatchOS) :
    parseOS (specOSAlias o) = .Darwin ∨ parseOS (specOSAlias o) = .MacOSX ∨
      parseOS (specOSAlias o) = .IOS ∨ parseOS (specOSAlias o) = .TvOS ∨
      parseOS (specOSAlias o) = .WatchOS := by
  obtain ⟨p, r, ho, hp⟩ := parseOS_darwin_family o h
  subst ho
  unfold specOSAlias
  simp only
  split_ifs with h1 h2
  · right; left; decide
  · exfalso
    rcases hp with hp | hp | hp | hp | hp <;> subst hp <;> simp [List.takeWhile] at h2
  · rcases hp with hp | hp | hp | hp | hp <;> subst hp <;>
      simp [List.takeWhile, parseOS, StringSwitch.StartsWith, parseOSCases, startswith]

/-- The environment name of the module triple of a Darwin-family triple. -/
theorem moduleTriple_darwin_environmentName (P : ComponentTables) (t : Triple)
    (h : t.isOSDarwin = true) :
    (getTargetSpecificModuleTriple P t).getEnvironmentName =
      (specEnvironment t.getEnvironmentName).getD [] := by
  have ha : '-' ∉ specArchAlias t.getArchName :=
    specArchAlias_not_mem _ (split_fst_not_mem '-' _)
  have ho : '-' ∉ specOSAlias t.getOSName :=
    specOSAlias_not_mem _ (split_fst_not_mem '-' _)
  have hv : '-' ∉ "apple".toList := by decide
  rw [getTargetSpecificModuleTriple_of_darwin P t h]
  cases hE : specEnvironment t.getEnvironmentName with
  | none =>
    exact (Triple.names_of_three _ _ _ _ rfl ha hv ho).2.2.2
  | some e =>
    exact (Triple.names_of_four _ _ _ _ _
      (Triple.ofArchVendorOSEnvironment_fields P _ _ _ _).1 ha hv ho).2.2.2

/-- The environment rule is idempotent. -/
theorem specEnvironment_getD (e : StringRef) :
    specEnvironment ((specEnvironment e).getD []) = specEnvironment e := by
  cases hE : specEnvironment e with
  | none => decide
  | some x =>
    obtain ⟨hx, _, _⟩ := specEnvironment_eq_some _ _ hE
    subst hx
    exact hE

/-- Idempotence of `getTargetSpecificModuleTriple` on every triple whose OS field is the one its OS name parses to. -/
theorem getTargetSpecificModuleTriple_idem_of_OS (P : ComponentTables) (t : Triple)
    (hOS : t.OS = parseOS t.getOSName) :
    getTargetSpecificModuleTriple P (getTargetSpecificModuleTriple P t) =
      getTargetSpecificModuleTriple P t := by
  by_cases hd : t.isOSDarwin = true
  · obtain ⟨_, h1, _, h3, _, _, _, _, _, h10, _⟩ :=
      getTargetSpecificModuleTriple_darwin_fields P t hd
    have h4 := moduleTriple_darwin_environmentName P t hd
    have hd2 : (getTargetSpecificModuleTriple P t).isOSDarwin = true := by
      rw [Triple.isOSDarwin_iff, h10]
      apply parseOS_specOSAlias_darwin_family
      rw [← hOS]
      exact (Triple.isOSDarwin_iff t).mp hd
    rw [getTargetSpecificModuleTriple_of_darwin P _ hd2, h1, h3, h4, specArchAlias_idem,
      specOSAlias_idem, specEnvironment_getD, ← getTargetSpecificModuleTriple_of_darwin P t hd]
  · by_cases ha : t.isAndroid = true
    · have hg : getTargetSpecificModuleTriple P t =
          Triple.ofArchVendorOSEnvironment P t.getArchName t.getVendorName t.getOSName
            "android".toList := by
        have henv : t.getEnvironment = .Android := by
          simpa [Triple.isAndroid] using ha
        unfold getTargetSpecificModuleTriple
        rw [dif_neg hd, if_pos ha, henv]
        rfl
      obtain ⟨f1, _, _, _, f5, f6⟩ := Triple.ofArchVendorOSEnvironment_fields P
        t.getArchName t.getVendorName t.getOSName "android".toList
      obtain ⟨n1, n2, n3, _⟩ := Triple.names_of_four _ _ _ _ _ f1
        (split_fst_not_mem '-' _) (split_fst_not_mem '-' _) (split_fst_not_mem '-' _)
      have hd2 : (getTargetSpecificModuleTriple P t).isOSDarwin = false := by
        rw [hg]
        have : ¬ (Triple.ofArchVendorOSEnvironment P t.getArchName t.getVendorName
            t.getOSName "android".toList).isOSDarwin = true := by
          rw [Triple.isOSDarwin_iff, f5, ← hOS, ← Triple.isOSDarwin_iff]
          exact hd
        simpa using this
      have ha2 : (getTargetSpecificModuleTriple P t).getEnvironment = .Android := by
        rw [hg, Triple.getEnvironment, f6]
        decide
      have hstep : getTargetSpecificModuleTriple P (getTargetSpecificModuleTriple P t) =
          Triple.ofArchVendorOSEnvironment P (getTargetSpecificModuleTriple P t).getArchName
            (getTargetSpecificModuleTriple P t).getVendorName
            (getTargetSpecificModuleTriple P t).getOSName "android".toList := by
        generalize getTargetSpecificModuleTriple P t = r at hd2 ha2 ⊢
        have hnd : ¬ r.isOSDarwin = true := by simp [hd2]
        have har : r.isAndroid = true := by simp [Triple.isAndroid, ha2]
        unfold getTargetSpecificModuleTriple
        rw [dif_neg hnd, if_pos har, ha2]
        rfl
      rw [hstep]
      rw [hg, n1, n2, n3]
    · have hg : getTargetSpecificModuleTriple P t = t := by
        unfold getTargetSpecificModuleTriple
        rw [dif_neg hd, if_neg ha]
      rw [hg, hg]

/-- C1, counterexample: `arm64-apple-tvos13.0-simulator` is a Darwin-family
triple on which `tripleIsiOSSimulator` is true while `getDarwinPlatformKind`
returns `TvOSSimulator`, not `IPhoneOSSimulator`. -/
theorem tripleIsiOSSimulator_tvOS_counterexample :
    tvOSSimulatorTriple.isOSDarwin = true ∧
    tripleIsiOSSimulator tvOSSimulatorTriple = true ∧
    getDarwinPlatformKind tvOSSimulatorTriple = .ok .TvOSSimulator ∧
    ¬ (tripleIsiOSSimulator tvOSSimulatorTriple = true ↔
        getDarwinPlatformKind tvOSSimulatorTriple = .ok .IPhoneOSSimulator) := by
  decide

/-- C1, amended: on a triple that is not tvOS, `tripleIsiOSSimulator` is true
exactly when `getDarwinPlatformKind` returns `IPhoneOSSimulator`; on a tvOS
triple `getDarwinPlatformKind` never returns `IPhoneOSSimulator`, and
`tripleIsiOSSimulator` is true exactly when it returns `TvOSSimulator`. -/
theorem tripleIsiOSSimulator_iff_kind (t : Triple) :
    (t.isTvOS = false →
      (tripleIsiOSSimulator t = true ↔ getDarwinPlatformKind t = .ok .IPhoneOSSimulator)) ∧
    (t.isTvOS = true →
      getDarwinPlatformKind t ≠ .ok .IPhoneOSSimulator ∧
      (tripleIsiOSSimulator t = true ↔ getDarwinPlatformKind t = .ok .TvOSSimulator)) := by
  constructor
  · intro htv
    simp only [getDarwinPlatformKind, htv]
    by_cases hi : t.isiOS = true
    · by_cases hs : tripleIsiOSSimulator t = true <;> simp [hi, hs]
    · have hs : tripleIsiOSSimulator t = false := by simp [tripleIsiOSSimulator, hi]
      simp only [hi, hs]
      split_ifs <;> simp
  · intro htv
    have hi : t.isiOS = true := by simp [Triple.isiOS, htv]
    have hc : tripleIsMacCatalystEnvironment t = false := by
      simp [tripleIsMacCatalystEnvironment, htv]
    simp only [getDarwinPlatformKind, hi, htv, tripleIsiOSSimulator, tripleIsAppleTVSimulator, hc]
    by_cases hs : t.isSimulatorEnvironment = true <;> simp [hs]

/-- C2: `getDarwinPlatformKind` returns a `DarwinPlatformKind` exactly on the
Darwin-family triples (macOS/Darwin, iOS, tvOS, watchOS) and ends in the
fatal `Unsupported Darwin platform` exactly on the other triples; there is no
third outcome. -/
theorem getDarwinPlatformKind_total_on_darwin (t : Triple) :
    (t.isOSDarwin = true ↔ ∃ k, getDarwinPlatformKind t = .ok k) ∧
    (t.isOSDarwin = false ↔
      getDarwinPlatformKind t = .error "Unsupported Darwin platform") ∧
    (t.isOSDarwin = true ↔
      (t.getOS = .Darwin ∨ t.getOS = .MacOSX ∨ t.getOS = .IOS ∨ t.getOS = .TvOS ∨
        t.getOS = .WatchOS)) := by
  refine ⟨?_, ?_, ?_⟩
  · simp only [getDarwinPlatformKind, Triple.isOSDarwin]
    by_cases hi : t.isiOS = true
    · simp only [hi]
      split_ifs <;> simp
    · by_cases hw : t.isWatchOS = true
      · simp only [hi, hw]
        split_ifs <;> simp
      · by_cases hm : t.isMacOSX = true <;> simp [hi, hw, hm]
  · simp only [getDarwinPlatformKind, Triple.isOSDarwin]
    by_cases hi : t.isiOS = true
    · simp only [hi]
      split_ifs <;> simp
    · by_cases hw : t.isWatchOS = true
      · simp only [hi, hw]
        split_ifs <;> simp
      · by_cases hm : t.isMacOSX = true <;> simp [hi, hw, hm]
  · simp only [Triple.isOSDarwin, Triple.isMacOSX, Triple.isiOS, Triple.isTvOS,
      Triple.isWatchOS, Bool.or_eq_true, beq_iff_eq]
    tauto

/-- C3: `getTargetSpecificModuleTriple` is idempotent: on every triple, the
triple parsed from any string, Darwin-family, Android or other, applying it
twice gives the same triple as applying it once. -/
theorem getTargetSpecificModuleTriple_idempotent (P : ComponentTables) (s : StringRef) :
    getTargetSpecificModuleTriple P
        (getTargetSpecificModuleTriple P (Triple.ofString P s)) =
      getTargetSpecificModuleTriple P (Triple.ofString P s) :=
  getTargetSpecificModuleTriple_idem_of_OS P _ (Triple.ofString_OS P s)

/-- C4: for two Darwin-family triples with the same vendor, OS and
environment names: when their architecture names are `amd64` and `x86_64`
the two module triples are identical; when they are `arm64e` and `arm64` the
two module triples differ, already in their text. -/
theorem moduleTriple_arch_alias (P : ComponentTables) (t1 t2 : Triple)
    (hd1 : t1.isOSDarwin = true) (hd2 : t2.isOSDarwin = true)
    (_hv : t1.getVendorName = t2.getVendorName) (ho : t1.getOSName = t2.getOSName)
    (he : t1.getEnvironmentName = t2.getEnvironmentName) :
    (t1.getArchName = "amd64".toList → t2.getArchName = "x86_64".toList →
      getTargetSpecificModuleTriple P t1 = getTargetSpecificModuleTriple P t2) ∧
    (t1.getArchName = "arm64e".toList → t2.getArchName = "arm64".toList →
      (getTargetSpecificModuleTriple P t1).Data ≠ (getTargetSpecificModuleTriple P t2).Data ∧
      getTargetSpecificModuleTriple P t1 ≠ getTargetSpecificModuleTriple P t2) := by
  refine ⟨?_, ?_⟩
  · intro a1 a2
    rw [getTargetSpecificModuleTriple_of_darwin P t1 hd1,
      getTargetSpecificModuleTriple_of_darwin P t2 hd2, a1, a2, ho, he]
    have : specArchAlias "amd64".toList = specArchAlias "x86_64".toList := by decide
    rw [this]
  · intro a1 a2
    have hne : (getTargetSpecificModuleTriple P t1).Data ≠
        (getTargetSpecificModuleTriple P t2).Data := by
      rw [(getTargetSpecificModuleTriple_darwin_fields P t1 hd1).1,
        (getTargetSpecificModuleTriple_darwin_fields P t2 hd2).1]
      have e1 : specArchAlias "arm64e".toList = "arm64e".toList := by decide
      have e2 : specArchAlias "arm64".toList = "arm64".toList := by decide
      simp only [specModuleTripleText, a1, a2, e1, e2]
      cases specEnvironment t1.getEnvironmentName <;>
        cases specEnvironment t2.getEnvironmentName <;>
        simp [List.intercalate]
    exact ⟨hne, fun heq => hne (by rw [heq])⟩

/-- C4, witness: the triples `amd64-apple-macosx10.15` and
`x86_64-apple-macosx10.15` have the same module triple, the triples
`arm64e-apple-ios14.0` and `arm64-apple-ios14.0` have different ones. -/
theorem moduleTriple_arch_alias_witness :
    getTargetSpecificModuleTriple exampleTables amd64Triple =
      getTargetSpecificModuleTriple exampleTables x86_64Triple ∧
    (getTargetSpecificModuleTriple exampleTables arm64eTriple).Data ≠
      (getTargetSpecificModuleTriple exampleTables arm64Triple).Data :=
  ⟨(moduleTriple_arch_alias exampleTables amd64Triple x86_64Triple (by decide) (by decide)
      (by decide) (by decide) (by decide)).1 (by decide) (by decide),
    ((moduleTriple_arch_alias exampleTables arm64eTriple arm64Triple (by decide) (by decide)
      (by decide) (by decide) (by decide)).2 (by decide) (by decide)).1⟩

/-- C5: on a Darwin-family triple `getTargetSpecificModuleTriple` returns the
triple rebuilt from the aliased architecture name, the vendor `apple`, the OS
name cut before its first digit and aliased, and the environment name, which
is present exactly when the input's environment name is neither empty nor
`unknown` and is then that name unchanged: this holds of the text, of the
four component names and of the fields parsed from them. -/
theorem getTargetSpecificModuleTriple_darwin_rebuilt (P : ComponentTables) (t : Triple)
    (h : t.isOSDarwin = true) :
    (getTargetSpecificModuleTriple P t).Data = specModuleTripleText t ∧
    (getTargetSpecificModuleTriple P t).getArchName = specArchAlias t.getArchName ∧
    (getTargetSpecificModuleTriple P t).getVendorName = "apple".toList ∧
    (getTargetSpecificModuleTriple P t).getOSName = specOSAlias t.getOSName ∧
    (getTargetSpecificModuleTriple P t).getEnvironmentName =
      (specEnvironment t.getEnvironmentName).getD [] ∧
    ((getTargetSpecificModuleTriple P t).hasEnvironment = true ↔
      (t.getEnvironmentName ≠ [] ∧ t.getEnvironmentName ≠ "unknown".toList)) ∧
    ((getTargetSpecificModuleTriple P t).hasEnvironment = true →
      (getTargetSpecificModuleTriple P t).getEnvironmentName = t.getEnvironmentName) ∧
    (getTargetSpecificModuleTriple P t).Arch = P.parseArch (specArchAlias t.getArchName) ∧
    (getTargetSpecificModuleTriple P t).SubArch =
      P.parseSubArch (specArchAlias t.getArchName) ∧
    (getTargetSpecificModuleTriple P t).Vendor = P.parseVendor "apple".toList ∧
    (getTargetSpecificModuleTriple P t).OS = parseOS (specOSAlias t.getOSName) ∧
    (getTargetSpecificModuleTriple P t).Environment =
      (match specEnvironment t.getEnvironmentName with
       | none => .UnknownEnvironment
       | some e => parseEnvironment e) := by
  obtain ⟨h1, h2, h3, h4, h5, h6, h7, h8, h9, h10, h11⟩ :=
    getTargetSpecificModuleTriple_darwin_fields P t h
  exact ⟨h1, h2, h3, h4, moduleTriple_darwin_environmentName P t h, h5, h6, h7, h8, h9, h10,
    h11⟩

/-- C5, witness: the Darwin-family triple `amd64-unknown-macosx10.15.4-macabi`,
whose module triple is `x86_64-apple-macos-macabi`. -/
theorem getTargetSpecificModuleTriple_darwin_rebuilt_witness :
    catalystExampleTriple.isOSDarwin = true ∧
    (getTargetSpecificModuleTriple exampleTables catalystExampleTriple).Data =
      specModuleTripleText catalystExampleTriple ∧
    specModuleTripleText catalystExampleTriple = "x86_64-apple-macos-macabi".toList :=
  ⟨by decide,
    (getTargetSpecificModuleTriple_darwin_rebuilt exampleTables catalystExampleTriple
      (by decide)).1,
    by decide⟩

/-- C6, counterexample: with the map `10.15 -> 5.2`, `remapVersion` applied to
the version 10.15.3 does not return 5.2: the key `10.15.3` is absent and the
subminor 3 is not 0, so the result is `None`. -/
theorem remapVersion_10_15_3_counterexample :
    ¬ (remapVersion exampleVersionMap (.majorMinorSubminor 10 15 3) =
        some (.majorMinor 5 2)) := by
  decide

/-- C6, amended: with the map `10.15 -> 5.2`, `remapVersion` applied to the
version 10.15.3 returns `None`, and applied to the version 10.15.0 it
returns 5.2. -/
theorem remapVersion_10_15_examples :
    remapVersion exampleVersionMap (.majorMinorSubminor 10 15 3) = none ∧
    remapVersion exampleVersionMap (.majorMinorSubminor 10 15 0) =
      some (.majorMinor 5 2) := by
  decide

/-- C7: `remapVersion` ignores the build field and returns the map's value
for the key of the version when the key is present.  When the key is absent
and the version has a subminor: a non-zero subminor gives `None`; a subminor
0 gives the value of the key `major.minor` when present, and when that key is
absent too, the value of the key `major` if the minor is 0 and `None`
otherwise.  A two-component version with a non-zero minor and an absent key
gives `None`.  With the map `10.15 -> 5.2`, 10.15 gives 5.2 and 10.16 gives
`None`. -/
theorem remapVersion_fallback_chain (m : StringMap VersionTuple) (v : VersionTuple) :
    remapVersion m v = remapVersion m v.withoutBuild ∧
    (∀ x, m.find v.withoutBuild.getAsString = some x → remapVersion m v = some x) ∧
    (m.find v.withoutBuild.getAsString = none →
      ∀ b c, v.getMinor = some b → v.getSubminor = some c →
        (c ≠ 0 → remapVersion m v = none) ∧
        (c = 0 →
          (∀ x, m.find (VersionTuple.majorMinor v.getMajor b).getAsString = some x →
            remapVersion m v = some x) ∧
          (m.find (VersionTuple.majorMinor v.getMajor b).getAsString = none →
            (b = 0 → remapVersion m v = m.find (VersionTuple.major v.getMajor).getAsString) ∧
            (b ≠ 0 → remapVersion m v = none)))) ∧
    (m.find v.withoutBuild.getAsString = none →
      ∀ b, v.getMinor = some b → v.getSubminor = none → b ≠ 0 → remapVersion m v = none) ∧
    remapVersion exampleVersionMap (.majorMinor 10 15) = some (.majorMinor 5 2) ∧
    remapVersion exampleVersionMap (.majorMinor 10 16) = none := by
  refine ⟨?_, ?_, ?_, ?_, by decide, by decide⟩
  · cases v <;> simp [remapVersion, VersionTuple.withoutBuild]
  · intro x hx
    simp [remapVersion, hx]
  · intro hk b c hb hc
    cases v with
    | major a => simp [VersionTuple.getMinor] at hb
    | majorMinor a b1 => simp [VersionTuple.getSubminor] at hc
    | majorMinorSubminor a b1 c1 =>
      simp only [VersionTuple.getMinor, VersionTuple.getSubminor, Option.some.injEq] at hb hc
      subst hb hc
      simp only [VersionTuple.withoutBuild] at hk
      refine ⟨?_, ?_⟩
      · intro hne
        simp [remapVersion, VersionTuple.withoutBuild, hk, VersionTuple.getSubminor, hne]
      · intro hz
        subst hz
        refine ⟨?_, ?_⟩
        · intro x hx
          simp [remapVersion, VersionTuple.withoutBuild, hk, VersionTuple.getSubminor,
            VersionTuple.getMinor, VersionTuple.getMajor, hx] at *
        · intro hk2
          simp only [VersionTuple.getMajor] at hk2 ⊢
          refine ⟨?_, ?_⟩
          · intro hb0
            subst hb0
            simp only [remapVersion, VersionTuple.withoutBuild, hk, VersionTuple.getSubminor,
              VersionTuple.getMinor, VersionTuple.getMajor, hk2]
            cases m.find (VersionTuple.major a).getAsString <;> simp
          · intro hb0
            simp [remapVersion, VersionTuple.withoutBuild, hk, VersionTuple.getSubminor,
              VersionTuple.getMinor, VersionTuple.getMajor, hk2, hb0]
    | majorMinorSubminorBuild a b1 c1 d =>
      simp only [VersionTuple.getMinor, VersionTuple.getSubminor, Option.some.injEq] at hb hc
      subst hb hc
      simp only [VersionTuple.withoutBuild] at hk
      refine ⟨?_, ?_⟩
      · intro hne
        simp [remapVersion, VersionTuple.withoutBuild, hk, VersionTuple.getSubminor, hne]
      · intro hz
        subst hz
        refine ⟨?_, ?_⟩
        · intro x hx
          simp [remapVersion, VersionTuple.withoutBuild, hk, VersionTuple.getSubminor,
            VersionTuple.getMinor, VersionTuple.getMajor, hx] at *
        · intro hk2
          simp only [VersionTuple.getMajor] at hk2 ⊢
          refine ⟨?_, ?_⟩
          · intro hb0
            subst hb0
            simp only [remapVersion, VersionTuple.withoutBuild, hk, VersionTuple.getSubminor,
              VersionTuple.getMinor, VersionTuple.getMajor, hk2]
            cases m.find (VersionTuple.major a).getAsString <;> simp
          · intro hb0
            simp [remapVersion, VersionTuple.withoutBuild, hk, VersionTuple.getSubminor,
              VersionTuple.getMinor, VersionTuple.getMajor, hk2, hb0]
  · intro hk b hb hc hne
    cases v with
    | major a => simp [VersionTuple.getMinor] at hb
    | majorMinor a b1 =>
      simp only [VersionTuple.withoutBuild] at hk
      simp [remapVersion, VersionTuple.withoutBuild, hk, VersionTuple.getSubminor]
    | majorMinorSubminor a b1 c1 => simp [VersionTuple.getSubminor] at hc
    | majorMinorSubminorBuild a b1 c1 d => simp [VersionTuple.getSubminor] at hc

/-- C8, counterexample: with the map `10 -> 5.2`, the two-component version
10.0 has minor 0, no subminor, and its key `10.0` is absent while the key
`10` is present; `remapVersion` returns `None`, not the value of the key
`10`. -/
theorem remapVersion_two_component_counterexample :
    majorOnlyVersionMap.find (VersionTuple.majorMinor 10 0).getAsString = none ∧
    majorOnlyVersionMap.find (VersionTuple.major 10).getAsString = some (.majorMinor 5 2) ∧
    remapVersion majorOnlyVersionMap (.majorMinor 10 0) = none := by
  decide

/-- C8, amended: for a version whose subminor is present and 0 and whose
minor is 0, when the keys `major.0.0` and `major.0` are absent,
`remapVersion` returns what the map holds for the key `major` alone
(`None` when that is absent as well).  A version with no subminor never
falls back: when its own key is absent the result is `None`, also for a
two-component version `(major, 0)`. -/
theorem remapVersion_minor_fallback (m : StringMap VersionTuple) (v : VersionTuple) :
    (v.getSubminor = some 0 → v.getMinor = some 0 →
      m.find v.withoutBuild.getAsString = none →
      m.find (VersionTuple.majorMinor v.getMajor 0).getAsString = none →
      remapVersion m v = m.find (VersionTuple.major v.getMajor).getAsString) ∧
    (v.getSubminor = none → m.find v.withoutBuild.getAsString = none →
      remapVersion m v = none) := by
  refine ⟨?_, ?_⟩
  · intro hc hb hk hk2
    cases v with
    | major a => simp [VersionTuple.getMinor] at hb
    | majorMinor a b1 => simp [VersionTuple.getSubminor] at hc
    | majorMinorSubminor a b1 c1 =>
      simp only [VersionTuple.getMinor, VersionTuple.getSubminor, Option.some.injEq] at hb hc
      subst hb hc
      simp only [VersionTuple.withoutBuild] at hk
      simp only [VersionTuple.getMajor] at hk2 ⊢
      simp only [remapVersion, VersionTuple.withoutBuild, hk, VersionTuple.getSubminor,
        VersionTuple.getMinor, VersionTuple.getMajor, hk2]
      cases m.find (VersionTuple.major a).getAsString <;> simp
    | majorMinorSubminorBuild a b1 c1 d =>
      simp only [VersionTuple.getMinor, VersionTuple.getSubminor, Option.some.injEq] at hb hc
      subst hb hc
      simp only [VersionTuple.withoutBuild] at hk
      simp only [VersionTuple.getMajor] at hk2 ⊢
      simp only [remapVersion, VersionTuple.withoutBuild, hk, VersionTuple.getSubminor,
        VersionTuple.getMinor, VersionTuple.getMajor, hk2]
      cases m.find (VersionTuple.major a).getAsString <;> simp
  · intro hc hk
    cases v with
    | major a =>
      simp only [VersionTuple.withoutBuild] at hk
      simp [remapVersion, VersionTuple.withoutBuild, hk, VersionTuple.getSubminor]
    | majorMinor a b1 =>
      simp only [VersionTuple.withoutBuild] at hk
      simp [remapVersion, VersionTuple.withoutBuild, hk, VersionTuple.getSubminor]
    | majorMinorSubminor a b1 c1 => simp [VersionTuple.getSubminor] at hc
    | majorMinorSubminorBuild a b1 c1 d => simp [VersionTuple.getSubminor] at hc

/-- C9: on every triple whose architecture name is exactly `arm64e`,
`getSwiftRuntimeCompatibilityVersionForTarget` returns 5.3, whatever the
other fields of the triple are. -/
theorem runtimeCompatibilityVersion_arm64e (t : Triple)
    (h : t.getArchName = "arm64e".toList) :
    getSwiftRuntimeCompatibilityVersionForTarget t = .ok (some (.majorMinor 5 3)) := by
  simp [getSwiftRuntimeCompatibilityVersionForTarget, h]

/-- C9, witness: the triple `arm64e-apple-ios14.0`. -/
theorem runtimeCompatibilityVersion_arm64e_witness :
    arm64eTriple.getArchName = "arm64e".toList ∧
    getSwiftRuntimeCompatibilityVersionForTarget arm64eTriple =
      .ok (some (.majorMinor 5 3)) :=
  ⟨by decide, runtimeCompatibilityVersion_arm64e arm64eTriple (by decide)⟩

/-- C10: on a macOS triple whose architecture name is not `arm64e`,
`Triple::getMacOSXVersion` yields a version (major, minor, micro) and
`getSwiftRuntimeCompatibilityVersionForTarget` returns: for major 10, 5.3 if
the architecture is 64-bit ARM and minor <= 16, else 5.0 if minor <= 14, else
for minor 15, 5.1 if micro <= 3 and 5.2 otherwise, else `None`; for major 11,
5.3; for any other major `None`.  On the `x86_64` triples of macOS 10.14,
10.15.2, 10.15.4 and 11.0 the results are 5.0, 5.1, 5.2 and 5.3. -/
theorem runtimeCompatibilityVersion_macOS :
    (∀ t : Triple, t.getArchName ≠ "arm64e".toList → t.isMacOSX = true →
      ∃ major minor micro, t.getMacOSXVersion = .ok (major, minor, micro) ∧
        getSwiftRuntimeCompatibilityVersionForTarget t = .ok
          (if major = 10 then
            if t.isAArch64 = true ∧ minor ≤ 16 then some (.majorMinor 5 3)
            else if minor ≤ 14 then some (.majorMinor 5 0)
            else if minor = 15 then
              if micro ≤ 3 then some (.majorMinor 5 1) else some (.majorMinor 5 2)
            else none
          else if major = 11 then some (.majorMinor 5 3)
          else none)) ∧
    getSwiftRuntimeCompatibilityVersionForTarget
      (Triple.ofString exampleTables "x86_64-apple-macosx10.14".toList) =
        .ok (some (.majorMinor 5 0)) ∧
    getSwiftRuntimeCompatibilityVersionForTarget
      (Triple.ofString exampleTables "x86_64-apple-macosx10.15.2".toList) =
        .ok (some (.majorMinor 5 1)) ∧
    getSwiftRuntimeCompatibilityVersionForTarget
      (Triple.ofString exampleTables "x86_64-apple-macosx10.15.4".toList) =
        .ok (some (.majorMinor 5 2)) ∧
    getSwiftRuntimeCompatibilityVersionForTarget
      (Triple.ofString exampleTables "x86_64-apple-macosx11.0".toList) =
        .ok (some (.majorMinor 5 3)) := by
  refine ⟨?_, by decide, by decide, by decide, by decide⟩
  intro t harch hmac
  have hver : ∃ p : Nat × Nat × Nat, t.getMacOSXVersion = .ok p := by
    have hos : t.getOS = .Darwin ∨ t.getOS = .MacOSX := by
      simpa [Triple.isMacOSX] using hmac
    rcases hos with hos | hos
    · simp only [Triple.getMacOSXVersion, hos]
      split_ifs <;> exact ⟨_, rfl⟩
    · simp only [Triple.getMacOSXVersion, hos]
      split_ifs <;> exact ⟨_, rfl⟩
  obtain ⟨⟨major, minor, micro⟩, hp⟩ := hver
  refine ⟨major, minor, micro, hp, ?_⟩
  simp only [getSwiftRuntimeCompatibilityVersionForTarget, harch, hmac, hp, if_true, if_false]
  by_cases h10 : major = 10
  · subst h10
    simp only [if_true]
    by_cases ha : t.isAArch64 = true ∧ minor ≤ 16
    · simp only [ha, and_self, if_true]
    · simp only [ha, if_false]
      by_cases h14 : minor ≤ 14
      · simp only [h14, if_true]
      · have h15 : minor ≤ 15 ↔ minor = 15 := by omega
        simp only [h14, if_false, h15]
        split_ifs <;> rfl
  · simp only [h10, if_false]
    split_ifs <;> rfl

end swift

/-! ## Theorems: environment predicates, platform names and SDK version -/

namespace llvm

/-- The architecture of a parsed triple is what the table gives on its
architecture name. -/
theorem Triple.ofString_Arch (P : ComponentTables) (s : StringRef) :
    (Triple.ofString P s).Arch = P.parseArch (Triple.ofString P s).getArchName ∧
    (Triple.ofString P s).SubArch = P.parseSubArch (Triple.ofString P s).getArchName := by
  have hname : (Triple.ofString P s).getArchName = (split '-' s).1 := by
    rw [Triple.getArchName, Triple.ofString_Data]
  rw [hname]
  have hF : (Triple.ofString P s).Arch =
        (match splitMax '-' 3 s with
          | c0 :: _ => P.parseArch c0
          | [] => .UnknownArch) ∧
      (Triple.ofString P s).SubArch =
        (match splitMax '-' 3 s with
          | c0 :: _ => P.parseSubArch c0
          | [] => .NoSubArch) := by
    unfold Triple.ofString
    generalize splitMax '-' 3 s = l
    rcases l with _ | ⟨c0, _ | ⟨c1, _ | ⟨c2, _ | ⟨c3, tl⟩⟩⟩⟩ <;> simp only <;>
      split_ifs <;> exact ⟨rfl, rfl⟩
  rw [hF.1, hF.2]
  by_cases h0 : '-' ∈ s
  · simp [splitMax, h0]
  · simp [splitMax, h0, split_of_not_mem _ _ h0]

/-- The environment of a parsed triple with more than one component is what
`parseEnvironment` gives on its environment name; with one component it is
what the MIPS switch gives. -/
theorem Triple.ofString_Environment (P : ComponentTables) (s : StringRef) :
    (Triple.ofString P s).Environment =
      if '-' ∈ s then parseEnvironment (Triple.ofString P s).getEnvironmentName
      else parseSingleComponentEnvironment s := by
  have hname : (Triple.ofString P s).getEnvironmentName =
      (split '-' (split '-' (split '-' s).2).2).2 := by
    rw [Triple.getEnvironmentName, Triple.ofString_Data]
  rw [hname]
  have hempty : parseEnvironment [] = .UnknownEnvironment := by decide
  have hE : (Triple.ofString P s).Environment =
      (match splitMax '-' 3 s with
        | [c0] => parseSingleComponentEnvironment c0
        | _ :: _ :: _ :: c3 :: _ => parseEnvironment c3
        | _ => .UnknownEnvironment) := by
    unfold Triple.ofString
    generalize splitMax '-' 3 s = l
    rcases l with _ | ⟨c0, _ | ⟨c1, _ | ⟨c2, _ | ⟨c3, tl⟩⟩⟩⟩ <;> simp only <;>
      split_ifs <;> rfl
  rw [hE]
  by_cases h0 : '-' ∈ s
  · by_cases h1 : '-' ∈ (split '-' s).2
    · by_cases h2 : '-' ∈ (split '-' (split '-' s).2).2
      · simp [splitMax, h0, h1, h2]
      · simp [splitMax, h0, h1, h2, split_of_not_mem _ _ h2, hempty]
    · simp [splitMax, h0, h1, split_of_not_mem _ _ h1, split, hempty]
  · simp [splitMax, h0]

/-- A parsed triple whose environment is `MacABI` has an environment name. -/
theorem Triple.ofString_hasEnvironment_of_MacABI (P : ComponentTables) (s : StringRef)
    (h : (Triple.ofString P s).Environment = .MacABI) :
    (Triple.ofString P s).hasEnvironment = true := by
  rw [Triple.ofString_Environment] at h
  by_cases h0 : '-' ∈ s
  · rw [if_pos h0] at h
    rw [Triple.hasEnvironment]
    by_cases he : (Triple.ofString P s).getEnvironmentName = []
    · rw [he] at h
      exact absurd h (by decide)
    · simpa using he
  · rw [if_neg h0] at h
    unfold parseSingleComponentEnvironment at h
    split_ifs at h

/-- An iOS or tvOS triple is not a macOS triple. -/
theorem Triple.isMacOSX_of_isiOS (t : Triple) (h : t.isiOS = true) : t.isMacOSX = false := by
  rcases t with ⟨D, A, S, V, O, E, F⟩
  cases O <;> simp_all [Triple.isiOS, Triple.isMacOSX, Triple.isTvOS, Triple.getOS]

/-- A watchOS triple is neither a macOS nor an iOS or tvOS triple. -/
theorem Triple.not_isiOS_of_isWatchOS (t : Triple) (h : t.isWatchOS = true) :
    t.isMacOSX = false ∧ t.isiOS = false := by
  rcases t with ⟨D, A, S, V, O, E, F⟩
  cases O <;>
    simp_all [Triple.isiOS, Triple.isMacOSX, Triple.isTvOS, Triple.isWatchOS, Triple.getOS]

end llvm

namespace swift

open llvm

/-- C11: on an iOS or tvOS triple whose architecture name is not `arm64e`,
`Triple::getiOSVersion` yields a version (major, minor, micro) and
`getSwiftRuntimeCompatibilityVersionForTarget` returns 5.3 if the
architecture is 64-bit ARM, major <= 14 and the environment is simulator or
Mac Catalyst; otherwise 5.0 if major <= 12, 5.1 if major is 13 and
minor <= 3, 5.2 if major is 13 and minor > 3, and `None` for a higher
major. -/
theorem runtimeCompatibilityVersion_iOS (t : Triple)
    (harch : t.getArchName ≠ "arm64e".toList) (hios : t.isiOS = true) :
    ∃ major minor micro, t.getiOSVersion = .ok (major, minor, micro) ∧
      getSwiftRuntimeCompatibilityVersionForTarget t = .ok
        (if t.isAArch64 = true ∧ major ≤ 14 ∧
            (t.isSimulatorEnvironment = true ∨ t.isMacCatalystEnvironment = true) then
          some (.majorMinor 5 3)
        else if major ≤ 12 then some (.majorMinor 5 0)
        else if major = 13 then
          if minor ≤ 3 then some (.majorMinor 5 1) else some (.majorMinor 5 2)
        else none) := by
  have hmac := Triple.isMacOSX_of_isiOS t hios
  have hver : ∃ p : Nat × Nat × Nat, t.getiOSVersion = .ok p := by
    have hos : t.getOS = .IOS ∨ t.getOS = .TvOS := by
      simpa [Triple.isiOS, Triple.isTvOS] using hios
    rcases hos with hos | hos
    · simp only [Triple.getiOSVersion, hos]
      split_ifs <;> exact ⟨_, rfl⟩
    · simp only [Triple.getiOSVersion, hos]
      split_ifs <;> exact ⟨_, rfl⟩
  obtain ⟨⟨major, minor, micro⟩, hp⟩ := hver
  refine ⟨major, minor, micro, hp, ?_⟩
  simp only [getSwiftRuntimeCompatibilityVersionForTarget, harch, hmac, hios, hp, if_true,
    if_false, Bool.false_eq_true]
  by_cases ha : t.isAArch64 = true ∧ major ≤ 14 ∧
      (t.isSimulatorEnvironment = true ∨ t.isMacCatalystEnvironment = true)
  · simp only [ha, and_self, if_true]
  · simp only [ha, if_false]
    by_cases h12 : major ≤ 12
    · simp only [h12, if_true]
    · have h13 : major ≤ 13 ↔ major = 13 := by omega
      simp only [h12, if_false, h13]
      split_ifs <;> rfl

/-- C11, witness: the triple `arm64-apple-ios13.4-simulator`, a 64-bit ARM
simulator triple of major version 13, gets 5.3. -/
theorem runtimeCompatibilityVersion_iOS_witness :
    iOSSimulatorTriple.getArchName ≠ "arm64e".toList ∧ iOSSimulatorTriple.isiOS = true ∧
    (∃ major minor micro, iOSSimulatorTriple.getiOSVersion = .ok (major, minor, micro) ∧
      getSwiftRuntimeCompatibilityVersionForTarget iOSSimulatorTriple = .ok
        (if iOSSimulatorTriple.isAArch64 = true ∧ major ≤ 14 ∧
            (iOSSimulatorTriple.isSimulatorEnvironment = true ∨
              iOSSimulatorTriple.isMacCatalystEnvironment = true) then
          some (.majorMinor 5 3)
        else if major ≤ 12 then some (.majorMinor 5 0)
        else if major = 13 then
          if minor ≤ 3 then some (.majorMinor 5 1) else some (.majorMinor 5 2)
        else none)) ∧
    iOSSimulatorTriple.getiOSVersion = .ok (13, 4, 0) ∧
    getSwiftRuntimeCompatibilityVersionForTarget iOSSimulatorTriple =
      .ok (some (.majorMinor 5 3)) :=
  ⟨by decide, by decide,
    runtimeCompatibilityVersion_iOS iOSSimulatorTriple (by decide) (by decide),
    by decide, by decide⟩

/-- C12: on a watchOS triple whose architecture name is not `arm64e`,
`Triple::getWatchOSVersion` yields a version (major, minor, micro) and
`getSwiftRuntimeCompatibilityVersionForTarget` returns 5.0 if major <= 5, 5.1
if major is 6 and minor <= 1, 5.2 if major is 6 and minor > 1, and `None` for
a higher major. -/
theorem runtimeCompatibilityVersion_watchOS (t : Triple)
    (harch : t.getArchName ≠ "arm64e".toList) (hwatch : t.isWatchOS = true) :
    ∃ major minor micro, t.getWatchOSVersion = .ok (major, minor, micro) ∧
      getSwiftRuntimeCompatibilityVersionForTarget t = .ok
        (if major ≤ 5 then some (.majorMinor 5 0)
        else if major = 6 then
          if minor ≤ 1 then some (.majorMinor 5 1) else some (.majorMinor 5 2)
        else none) := by
  obtain ⟨hmac, hios⟩ := Triple.not_isiOS_of_isWatchOS t hwatch
  have hver : ∃ p : Nat × Nat × Nat, t.getWatchOSVersion = .ok p := by
    have hos : t.getOS = .WatchOS := by
      simpa [Triple.isWatchOS] using hwatch
    simp only [Triple.getWatchOSVersion, hos]
    split_ifs <;> exact ⟨_, rfl⟩
  obtain ⟨⟨major, minor, micro⟩, hp⟩ := hver
  refine ⟨major, minor, micro, hp, ?_⟩
  simp only [getSwiftRuntimeCompatibilityVersionForTarget, harch, hmac, hios, hwatch, hp,
    if_true, if_false, Bool.false_eq_true]
  by_cases h5 : major ≤ 5
  · simp only [h5, if_true]
  · have h6 : major ≤ 6 ↔ major = 6 := by omega
    simp only [h5, if_false, h6]
    split_ifs <;> rfl

/-- C12, witness: the triple `armv7k-apple-watchos6.2` gets 5.2. -/
theorem runtimeCompatibilityVersion_watchOS_witness :
    watchOSTriple.getArchName ≠ "arm64e".toList ∧ watchOSTriple.isWatchOS = true ∧
    (∃ major minor micro, watchOSTriple.getWatchOSVersion = .ok (major, minor, micro) ∧
      getSwiftRuntimeCompatibilityVersionForTarget watchOSTriple = .ok
        (if major ≤ 5 then some (.majorMinor 5 0)
        else if major = 6 then
          if minor ≤ 1 then some (.majorMinor 5 1) else some (.majorMinor 5 2)
        else none)) ∧
    watchOSTriple.getWatchOSVersion = .ok (6, 2, 0) ∧
    getSwiftRuntimeCompatibilityVersionForTarget watchOSTriple =
      .ok (some (.majorMinor 5 2)) :=
  ⟨by decide, by decide,
    runtimeCompatibilityVersion_watchOS watchOSTriple (by decide) (by decide),
    by decide, by decide⟩


/-- The characterisation of `triplesAreValidForZippering` by the four tests of
its first statement and the two pairings. -/
theorem triplesAreValidForZippering_eq_true_iff (a b : Triple) :
    triplesAreValidForZippering a b = true ↔
      (a.getArchName = b.getArchName ∧ a.getArch = b.getArch ∧
        a.getSubArch = b.getSubArch ∧ a.getVendor = b.getVendor) ∧
      ((a.isMacOSX = true ∧ tripleIsMacCatalystEnvironment b = true) ∨
        (b.isMacOSX = true ∧ tripleIsMacCatalystEnvironment a = true)) := by
  unfold triplesAreValidForZippering
  by_cases h1 : a.getArchName = b.getArchName <;> by_cases h2 : a.getArch = b.getArch <;>
    by_cases h3 : a.getSubArch = b.getSubArch <;> by_cases h4 : a.getVendor = b.getVendor <;>
    simp [h1, h2, h3, h4]

/-- C13: `triplesAreValidForZippering(a, b)` is true exactly when `a` and `b`
have identical architecture (name and parsed kind), sub-architecture and
vendor, and `a` is macOS with `b` Mac Catalyst or `b` is macOS with `a` Mac
Catalyst; in every other case it is false, and it never fails.  For two
parsed triples the architecture name decides the architecture and the
sub-architecture. -/
theorem triplesAreValidForZippering_iff :
    (∀ a b : Triple,
      (triplesAreValidForZippering a b = true ↔
        (a.getArchName = b.getArchName ∧ a.getArch = b.getArch ∧
          a.getSubArch = b.getSubArch ∧ a.getVendor = b.getVendor) ∧
        ((a.isMacOSX = true ∧ tripleIsMacCatalystEnvironment b = true) ∨
          (b.isMacOSX = true ∧ tripleIsMacCatalystEnvironment a = true))) ∧
      (¬ ((a.getArchName = b.getArchName ∧ a.getArch = b.getArch ∧
          a.getSubArch = b.getSubArch ∧ a.getVendor = b.getVendor) ∧
        ((a.isMacOSX = true ∧ tripleIsMacCatalystEnvironment b = true) ∨
          (b.isMacOSX = true ∧ tripleIsMacCatalystEnvironment a = true))) →
        triplesAreValidForZippering a b = false)) ∧
    (∀ (P : ComponentTables) (sa sb : StringRef),
      triplesAreValidForZippering (Triple.ofString P sa) (Triple.ofString P sb) = true ↔
        ((Triple.ofString P sa).getArchName = (Triple.ofString P sb).getArchName ∧
          (Triple.ofString P sa).getVendor = (Triple.ofString P sb).getVendor) ∧
        (((Triple.ofString P sa).isMacOSX = true ∧
            tripleIsMacCatalystEnvironment (Triple.ofString P sb) = true) ∨
          ((Triple.ofString P sb).isMacOSX = true ∧
            tripleIsMacCatalystEnvironment (Triple.ofString P sa) = true))) := by
  refine ⟨fun a b => ⟨triplesAreValidForZippering_eq_true_iff a b, ?_⟩, ?_⟩
  · intro h
    rw [← triplesAreValidForZippering_eq_true_iff] at h
    simpa using h
  · intro P sa sb
    rw [triplesAreValidForZippering_eq_true_iff]
    constructor
    · rintro ⟨⟨h1, _, _, h4⟩, h5⟩
      exact ⟨⟨h1, h4⟩, h5⟩
    · rintro ⟨⟨h1, h4⟩, h5⟩
      refine ⟨⟨h1, ?_, ?_, h4⟩, h5⟩
      · rw [Triple.getArch, Triple.getArch, (Triple.ofString_Arch P sa).1,
          (Triple.ofString_Arch P sb).1, h1]
      · rw [Triple.getSubArch, Triple.getSubArch, (Triple.ofString_Arch P sa).2,
          (Triple.ofString_Arch P sb).2, h1]

/-- C14: `triplesAreValidForZippering` gives the same result in both argument
orders.  For a parsed macOS triple and a parsed Mac Catalyst triple with the
same architecture name and vendor it is true in both orders; for two triples
whose architectures differ it is false in both orders.  So it is on
`x86_64-apple-macosx10.15` with `x86_64-apple-ios13.0-macabi` (true) and with
`arm64-apple-ios13.0-macabi` (false). -/
theorem triplesAreValidForZippering_symmetric :
    (∀ a b : Triple, triplesAreValidForZippering a b = triplesAreValidForZippering b a) ∧
    (∀ (P : ComponentTables) (sm sc : StringRef),
      (Triple.ofString P sm).isMacOSX = true →
      tripleIsMacCatalystEnvironment (Triple.ofString P sc) = true →
      (Triple.ofString P sm).getArchName = (Triple.ofString P sc).getArchName →
      (Triple.ofString P sm).getVendor = (Triple.ofString P sc).getVendor →
      triplesAreValidForZippering (Triple.ofString P sm) (Triple.ofString P sc) = true ∧
      triplesAreValidForZippering (Triple.ofString P sc) (Triple.ofString P sm) = true) ∧
    (∀ m c : Triple, (m.getArch ≠ c.getArch ∨ m.getArchName ≠ c.getArchName) →
      triplesAreValidForZippering m c = false ∧ triplesAreValidForZippering c m = false) ∧
    triplesAreValidForZippering x86_64Triple x86_64CatalystTriple = true ∧
    triplesAreValidForZippering x86_64CatalystTriple x86_64Triple = true ∧
    triplesAreValidForZippering x86_64Triple arm64CatalystTriple = false ∧
    triplesAreValidForZippering arm64CatalystTriple x86_64Triple = false := by
  have hsymm : ∀ a b : Triple,
      triplesAreValidForZippering a b = triplesAreValidForZippering b a := by
    intro a b
    rw [Bool.eq_iff_iff, triplesAreValidForZippering_eq_true_iff,
      triplesAreValidForZippering_eq_true_iff]
    constructor
    · rintro ⟨⟨h1, h2, h3, h4⟩, h5⟩
      exact ⟨⟨h1.symm, h2.symm, h3.symm, h4.symm⟩, h5.symm⟩
    · rintro ⟨⟨h1, h2, h3, h4⟩, h5⟩
      exact ⟨⟨h1.symm, h2.symm, h3.symm, h4.symm⟩, h5.symm⟩
  refine ⟨hsymm, ?_, ?_, by decide, by decide, by decide, by decide⟩
  · intro P sm sc hm hc hn hv
    have h : triplesAreValidForZippering (Triple.ofString P sm) (Triple.ofString P sc) =
        true := by
      rw [triplesAreValidForZippering_eq_true_iff]
      refine ⟨⟨hn, ?_, ?_, hv⟩, Or.inl ⟨hm, hc⟩⟩
      · rw [Triple.getArch, Triple.getArch, (Triple.ofString_Arch P sm).1,
          (Triple.ofString_Arch P sc).1, hn]
      · rw [Triple.getSubArch, Triple.getSubArch, (Triple.ofString_Arch P sm).2,
          (Triple.ofString_Arch P sc).2, hn]
    exact ⟨h, by rw [hsymm]; exact h⟩
  · intro m c hne
    have h : triplesAreValidForZippering m c = false := by
      rw [← Bool.not_eq_true, triplesAreValidForZippering_eq_true_iff]
      rintro ⟨⟨h1, h2, _, _⟩, _⟩
      rcases hne with hne | hne
      · exact hne h2
      · exact hne h1
    exact ⟨h, by rw [hsymm]; exact h⟩

/-- The characterisation of `tripleInfersSimulatorEnvironment` on a triple
whose environment is `MacABI` only if it has an environment name. -/
theorem tripleInfersSimulatorEnvironment_iff_of (t : Triple)
    (hcons : t.Environment = .MacABI → t.hasEnvironment = true) :
    tripleInfersSimulatorEnvironment t = true ↔
      ((t.getOS = .IOS ∨ t.getOS = .TvOS ∨ t.getOS = .WatchOS) ∧
        t.hasEnvironment = false ∧ (t.getArch = .x86 ∨ t.getArch = .x86_64)) := by
  have hcat : t.hasEnvironment = false → tripleIsMacCatalystEnvironment t = false := by
    intro hne
    by_cases hE : t.Environment = .MacABI
    · rw [hcons hE] at hne
      exact absurd hne (by decide)
    · simp [tripleIsMacCatalystEnvironment, Triple.getEnvironment, hE]
  unfold tripleInfersSimulatorEnvironment
  split
  · rename_i hos
    constructor
    · intro h
      simp only [Bool.and_eq_true, Bool.not_eq_true', Bool.or_eq_true, beq_iff_eq] at h
      exact ⟨Or.inl hos, h.1.1, h.1.2⟩
    · rintro ⟨_, hne, harch⟩
      simp only [Bool.and_eq_true, Bool.not_eq_true', Bool.or_eq_true, beq_iff_eq]
      exact ⟨⟨hne, harch⟩, hcat hne⟩
  · rename_i hos
    constructor
    · intro h
      simp only [Bool.and_eq_true, Bool.not_eq_true', Bool.or_eq_true, beq_iff_eq] at h
      exact ⟨Or.inr (Or.inl hos), h.1.1, h.1.2⟩
    · rintro ⟨_, hne, harch⟩
      simp only [Bool.and_eq_true, Bool.not_eq_true', Bool.or_eq_true, beq_iff_eq]
      exact ⟨⟨hne, harch⟩, hcat hne⟩
  · rename_i hos
    constructor
    · intro h
      simp only [Bool.and_eq_true, Bool.not_eq_true', Bool.or_eq_true, beq_iff_eq] at h
      exact ⟨Or.inr (Or.inr hos), h.1.1, h.1.2⟩
    · rintro ⟨_, hne, harch⟩
      simp only [Bool.and_eq_true, Bool.not_eq_true', Bool.or_eq_true, beq_iff_eq]
      exact ⟨⟨hne, harch⟩, hcat hne⟩
  · rename_i h1 h2 h3
    constructor
    · intro h
      exact absurd h (by decide)
    · rintro ⟨hos, _, _⟩
      rcases hos with hos | hos | hos
      · exact absurd hos h1
      · exact absurd hos h2
      · exact absurd hos h3

end swift

namespace llvm

/-- The method `isOSVersionLT` is the lexicographic order on the version of
`getOSVersion`. -/
theorem Triple.isOSVersionLT_iff (t : Triple) (Major Minor Micro : Nat) :
    t.isOSVersionLT Major Minor Micro = true ↔
      swift.versionLT t.getOSVersion (Major, Minor, Micro) := by
  unfold Triple.isOSVersionLT swift.versionLT
  simp only
  split_ifs with h1 h2 h3
  · simp only [decide_eq_true_eq]
    omega
  · simp only [decide_eq_true_eq]
    omega
  · simp only [decide_eq_true_eq]
    omega
  · simp only [Bool.false_eq_true, false_iff]
    omega

end llvm

namespace swift

open llvm

/-- C15: on every parsed triple, and on every triple whose environment is
`MacABI` only if it has an environment name, `tripleInfersSimulatorEnvironment`
is true exactly when the OS is iOS, tvOS or watchOS, there is no environment
name and the architecture is x86 or x86_64.  It is false on every triple of
another architecture (so on every ARM one), on every triple with an
environment name and on every triple of another OS. -/
theorem tripleInfersSimulatorEnvironment_iff :
    (∀ (P : ComponentTables) (s : StringRef),
      tripleInfersSimulatorEnvironment (Triple.ofString P s) = true ↔
        (((Triple.ofString P s).getOS = .IOS ∨ (Triple.ofString P s).getOS = .TvOS ∨
            (Triple.ofString P s).getOS = .WatchOS) ∧
          (Triple.ofString P s).hasEnvironment = false ∧
          ((Triple.ofString P s).getArch = .x86 ∨ (Triple.ofString P s).getArch = .x86_64))) ∧
    (∀ t : Triple, (t.getEnvironment = .MacABI → t.hasEnvironment = true) →
      (tripleInfersSimulatorEnvironment t = true ↔
        ((t.getOS = .IOS ∨ t.getOS = .TvOS ∨ t.getOS = .WatchOS) ∧
          t.hasEnvironment = false ∧ (t.getArch = .x86 ∨ t.getArch = .x86_64)))) ∧
    (∀ t : Triple, t.getArch ≠ .x86 → t.getArch ≠ .x86_64 →
      tripleInfersSimulatorEnvironment t = false) ∧
    (∀ t : Triple, t.hasEnvironment = true → tripleInfersSimulatorEnvironment t = false) ∧
    (∀ t : Triple, t.getOS ≠ .IOS → t.getOS ≠ .TvOS → t.getOS ≠ .WatchOS →
      tripleInfersSimulatorEnvironment t = false) ∧
    tripleInfersSimulatorEnvironment
      (Triple.ofString exampleTables "x86_64-apple-ios13.0".toList) = true ∧
    tripleInfersSimulatorEnvironment
      (Triple.ofString exampleTables "i386-apple-watchos6.0".toList) = true ∧
    tripleInfersSimulatorEnvironment arm64Triple = false ∧
    tripleInfersSimulatorEnvironment
      (Triple.ofString exampleTables "x86_64-apple-ios13.0-simulator".toList) = false ∧
    tripleInfersSimulatorEnvironment x86_64CatalystTriple = false ∧
    tripleInfersSimulatorEnvironment x86_64Triple = false := by
  refine ⟨?_, ?_, ?_, ?_, ?_, by decide, by decide, by decide, by decide, by decide,
    by decide⟩
  · intro P s
    exact tripleInfersSimulatorEnvironment_iff_of _
      (Triple.ofString_hasEnvironment_of_MacABI P s)
  · intro t h
    exact tripleInfersSimulatorEnvironment_iff_of t h
  · intro t h1 h2
    unfold tripleInfersSimulatorEnvironment
    split <;> simp [h1, h2]
  · intro t h
    unfold tripleInfersSimulatorEnvironment
    split <;> simp [h]
  · intro t h1 h2 h3
    unfold tripleInfersSimulatorEnvironment
    split <;> simp_all

/-- C16, counterexample: `arm64-apple-tvos12.0` is a tvOS triple, neither an
iOS nor a watchOS one, and `tripleRequiresRPathForSwiftInOS` is true on
it. -/
theorem tripleRequiresRPath_tvOS_counterexample :
    tvOS12Triple.getOS = .TvOS ∧
    tripleRequiresRPathForSwiftInOS tvOS12Triple = true ∧
    ¬ (tripleRequiresRPathForSwiftInOS tvOS12Triple = true ↔
        ((tvOS12Triple.getOS = .IOS ∧ versionLT tvOS12Triple.getOSVersion (12, 2, 0)) ∨
          (tvOS12Triple.getOS = .WatchOS ∧
            versionLT tvOS12Triple.getOSVersion (5, 2, 0)))) := by
  decide

/-- C16, amended: `tripleRequiresRPathForSwiftInOS` is true exactly on the iOS
and tvOS triples whose OS version is below 12.2 and on the watchOS triples
whose OS version is below 5.2, the versions compared lexicographically; it is
false on every macOS triple and on every triple of another platform. -/
theorem tripleRequiresRPath_iff (t : Triple) :
    (tripleRequiresRPathForSwiftInOS t = true ↔
      (((t.getOS = .IOS ∨ t.getOS = .TvOS) ∧ versionLT t.getOSVersion (12, 2, 0)) ∨
        (t.getOS = .WatchOS ∧ versionLT t.getOSVersion (5, 2, 0)))) ∧
    (t.isMacOSX = true → tripleRequiresRPathForSwiftInOS t = false) ∧
    (t.isOSDarwin = false → tripleRequiresRPathForSwiftInOS t = false) := by
  have hios : t.isiOS = true ↔ (t.getOS = .IOS ∨ t.getOS = .TvOS) := by
    simp [Triple.isiOS, Triple.isTvOS]
  have hwatch : t.isWatchOS = true ↔ t.getOS = .WatchOS := by
    simp [Triple.isWatchOS]
  refine ⟨?_, ?_, ?_⟩
  · unfold tripleRequiresRPathForSwiftInOS
    by_cases hm : t.isMacOSX = true
    · have hos : t.getOS = .Darwin ∨ t.getOS = .MacOSX := by
        simpa [Triple.isMacOSX] using hm
      rw [if_pos hm]
      rcases hos with hos | hos <;> simp [hos]
    · rw [if_neg hm]
      by_cases hi : t.isiOS = true
      · rw [if_pos hi, Triple.isOSVersionLT_iff]
        have hos := hios.mp hi
        constructor
        · intro h
          exact Or.inl ⟨hos, h⟩
        · rintro (⟨_, h⟩ | ⟨hw, _⟩)
          · exact h
          · rcases hos with hos | hos <;> rw [hos] at hw <;> cases hw
      · rw [if_neg hi]
        by_cases hw : t.isWatchOS = true
        · rw [if_pos hw, Triple.isOSVersionLT_iff]
          have hos := hwatch.mp hw
          constructor
          · intro h
            exact Or.inr ⟨hos, h⟩
          · rintro (⟨hi2, _⟩ | ⟨_, h⟩)
            · exact absurd (hios.mpr hi2) hi
            · exact h
        · rw [if_neg hw]
          constructor
          · intro h
            exact absurd h (by decide)
          · rintro (⟨hi2, _⟩ | ⟨hw2, _⟩)
            · exact absurd (hios.mpr hi2) hi
            · exact absurd (hwatch.mpr hw2) hw
  · intro hm
    simp [tripleRequiresRPathForSwiftInOS, hm]
  · intro hd
    have h3 : t.isMacOSX = false ∧ t.isiOS = false ∧ t.isWatchOS = false := by
      simpa [Triple.isOSDarwin, and_assoc] using hd
    simp [tripleRequiresRPathForSwiftInOS, h3.1, h3.2.1, h3.2.2]


/-- C17: `getTargetSDKVersion` returns the version of the SDK unchanged on a
triple that is not Mac Catalyst; on a Mac Catalyst triple it returns what
`remapVersion` finds for the SDK version in the macOS-to-Catalyst map, and
the version 0.0.0 when `remapVersion` finds nothing.  It is a total
function, so it never fails. -/
theorem getTargetSDKVersion_cases (SDKInfo : clang.DarwinSDKInfo) (t : Triple) :
    (tripleIsMacCatalystEnvironment t = false →
      getTargetSDKVersion SDKInfo t = SDKInfo.getVersion) ∧
    (tripleIsMacCatalystEnvironment t = true →
      (∀ x, remapVersion SDKInfo.getVersionMap.MacOS2iOSMacMapping SDKInfo.getVersion =
          some x → getTargetSDKVersion SDKInfo t = x) ∧
      (remapVersion SDKInfo.getVersionMap.MacOS2iOSMacMapping SDKInfo.getVersion = none →
        getTargetSDKVersion SDKInfo t = .majorMinorSubminor 0 0 0)) ∧
    getTargetSDKVersion exampleSDKInfo x86_64Triple = .majorMinor 10 15 ∧
    getTargetSDKVersion exampleSDKInfo x86_64CatalystTriple = .majorMinor 13 1 ∧
    getTargetSDKVersion unmappedSDKInfo x86_64CatalystTriple =
      .majorMinorSubminor 0 0 0 := by
  refine ⟨?_, ?_, by decide, by decide, by decide⟩
  · intro h
    simp [getTargetSDKVersion, h]
  · intro h
    refine ⟨?_, ?_⟩
    · intro x hx
      simp [getTargetSDKVersion, h, hx]
    · intro hx
      simp [getTargetSDKVersion, h, hx]

/-- The platform name of a Darwin-family triple is the name of its platform
kind. -/
theorem getPlatformNameForTriple_of_darwin (t : Triple) (h : t.isOSDarwin = true) :
    getPlatformNameForTriple t =
      match getDarwinPlatformKind t with
      | .ok platform => .ok (getPlatformNameForDarwin platform)
      | .error e => .error e := by
  have hos := (Triple.isOSDarwin_iff t).mp h
  unfold getPlatformNameForTriple
  rcases hos with hos | hos | hos | hos | hos <;> simp only [Triple.getOS, hos]

/-- On a Darwin-family triple `getDarwinPlatformKind` returns a kind. -/
theorem getDarwinPlatformKind_ok_of_darwin (t : Triple) (h : t.isOSDarwin = true) :
    ∃ k, getDarwinPlatformKind t = .ok k := by
  have h3 : t.isMacOSX = true ∨ t.isiOS = true ∨ t.isWatchOS = true := by
    simpa [Triple.isOSDarwin, or_assoc] using h
  unfold getDarwinPlatformKind
  by_cases hi : t.isiOS = true
  · rw [if_pos hi]
    split_ifs <;> exact ⟨_, rfl⟩
  · rw [if_neg hi]
    by_cases hw : t.isWatchOS = true
    · rw [if_pos hw]
      split_ifs <;> exact ⟨_, rfl⟩
    · rw [if_neg hw]
      have hm : t.isMacOSX = true := by
        rcases h3 with h3 | h3 | h3
        · exact h3
        · exact absurd h3 hi
        · exact absurd h3 hw
      rw [if_pos hm]
      exact ⟨_, rfl⟩

/-- C18: on every Darwin-family triple `getPlatformNameForTriple` does not
fail: `getDarwinPlatformKind` returns a kind and the result is
`getPlatformNameForDarwin` of that kind, one of the seven names `macosx`,
`iphoneos`, `iphonesimulator`, `appletvos`, `appletvsimulator`, `watchos`,
`watchsimulator`. -/
theorem getPlatformNameForTriple_darwin (t : Triple) (h : t.isOSDarwin = true) :
    ∃ k, getDarwinPlatformKind t = .ok k ∧
      getPlatformNameForTriple t = .ok (getPlatformNameForDarwin k) ∧
      getPlatformNameForDarwin k ∈
        ["macosx".toList, "iphoneos".toList, "iphonesimulator".toList, "appletvos".toList,
          "appletvsimulator".toList, "watchos".toList, "watchsimulator".toList] := by
  obtain ⟨k, hk⟩ := getDarwinPlatformKind_ok_of_darwin t h
  refine ⟨k, hk, ?_, ?_⟩
  · rw [getPlatformNameForTriple_of_darwin t h, hk]
  · cases k <;> decide

/-- C18, witness: the triple `arm64-apple-tvos13.0-simulator`, whose platform
name is `appletvsimulator`. -/
theorem getPlatformNameForTriple_darwin_witness :
    tvOSSimulatorTriple.isOSDarwin = true ∧
    (∃ k, getDarwinPlatformKind tvOSSimulatorTriple = .ok k ∧
      getPlatformNameForTriple tvOSSimulatorTriple = .ok (getPlatformNameForDarwin k) ∧
      getPlatformNameForDarwin k ∈
        ["macosx".toList, "iphoneos".toList, "iphonesimulator".toList, "appletvos".toList,
          "appletvsimulator".toList, "watchos".toList, "watchsimulator".toList]) ∧
    getPlatformNameForTriple tvOSSimulatorTriple = .ok "appletvsimulator".toList :=
  ⟨by decide, getPlatformNameForTriple_darwin tvOSSimulatorTriple (by decide), by decide⟩

/-- C19: `getPlatformNameForTriple` ends in a fatal `llvm_unreachable` exactly
when the OS is the unknown OS, or the OS is Windows and the environment is
none of Cygnus, GNU, MSVC and Itanium; on every other triple it returns a
string. -/
theorem getPlatformNameForTriple_error_iff (t : Triple) :
    ((∃ e, getPlatformNameForTriple t = .error e) ↔
      (t.getOS = .UnknownOS ∨
        (t.getOS = .Win32 ∧ t.getEnvironment ≠ .Cygnus ∧ t.getEnvironment ≠ .GNU ∧
          t.getEnvironment ≠ .MSVC ∧ t.getEnvironment ≠ .Itanium))) ∧
    (¬ (t.getOS = .UnknownOS ∨
        (t.getOS = .Win32 ∧ t.getEnvironment ≠ .Cygnus ∧ t.getEnvironment ≠ .GNU ∧
          t.getEnvironment ≠ .MSVC ∧ t.getEnvironment ≠ .Itanium)) →
      ∃ name, getPlatformNameForTriple t = .ok name) := by
  have hdarwin : t.isOSDarwin = true → ∃ name, getPlatformNameForTriple t = .ok name := by
    intro h
    obtain ⟨k, hk⟩ := getDarwinPlatformKind_ok_of_darwin t h
    exact ⟨_, by rw [getPlatformNameForTriple_of_darwin t h, hk]⟩
  have key : (∃ e, getPlatformNameForTriple t = .error e) ∨
      (∃ name, getPlatformNameForTriple t = .ok name) := by
    cases getPlatformNameForTriple t with
    | error e => exact Or.inl ⟨e, rfl⟩
    | ok name => exact Or.inr ⟨name, rfl⟩
  have hiff : (∃ e, getPlatformNameForTriple t = .error e) ↔
      (t.getOS = .UnknownOS ∨
        (t.getOS = .Win32 ∧ t.getEnvironment ≠ .Cygnus ∧ t.getEnvironment ≠ .GNU ∧
          t.getEnvironment ≠ .MSVC ∧ t.getEnvironment ≠ .Itanium)) := by
    by_cases hd : t.isOSDarwin = true
    · obtain ⟨name, hn⟩ := hdarwin hd
      have hos := (Triple.isOSDarwin_iff t).mp hd
      rw [hn]
      simp only [Triple.getOS]
      rcases hos with hos | hos | hos | hos | hos <;> simp [hos]
    · have hos : ¬ (t.OS = .Darwin ∨ t.OS = .MacOSX ∨ t.OS = .IOS ∨ t.OS = .TvOS ∨
          t.OS = .WatchOS) := fun h => hd ((Triple.isOSDarwin_iff t).mpr h)
      rcases t with ⟨D, A, S, V, O, E, F⟩
      cases O <;> simp only [not_or, not_true_eq_false, false_and, and_false] at hos <;>
        first
          | (simp [getPlatformNameForTriple, Triple.getOS, Triple.getEnvironment]; done)
          | (cases E <;>
              simp [getPlatformNameForTriple, Triple.getOS, Triple.getEnvironment])
  refine ⟨hiff, ?_⟩
  intro hne
  rcases key with he | hok
  · exact absurd (hiff.mp he) hne
  · exact hok


/-- The platform name of a Darwin platform kind is not empty. -/
theorem getPlatformNameForDarwin_ne_nil (k : DarwinPlatformKind) :
    getPlatformNameForDarwin k ≠ [] := by
  cases k <;> decide

/-- C20: on a triple that is not Darwin-family `getPlatformNameForTriple`
returns `android` for Linux with the Android environment and `linux` for any
other Linux triple; `freebsd`, `openbsd`, `haiku`, `wasi`, `ps4` for those OS
families; `cygwin`, `mingw`, `windows`, `windows` for Windows with the
Cygnus, GNU, MSVC, Itanium environment; and these are, with the 23
platform-less families, all the triples that are not Darwin-family on which
it does not fail.  On every triple, the result is the empty string exactly
when the OS is one of the 23 platform-less families. -/
theorem getPlatformNameForTriple_table (t : Triple) :
    (t.getOS = .Linux → t.getEnvironment = .Android →
      getPlatformNameForTriple t = .ok "android".toList) ∧
    (t.getOS = .Linux → t.getEnvironment ≠ .Android →
      getPlatformNameForTriple t = .ok "linux".toList) ∧
    (t.getOS = .FreeBSD → getPlatformNameForTriple t = .ok "freebsd".toList) ∧
    (t.getOS = .OpenBSD → getPlatformNameForTriple t = .ok "openbsd".toList) ∧
    (t.getOS = .Haiku → getPlatformNameForTriple t = .ok "haiku".toList) ∧
    (t.getOS = .WASI → getPlatformNameForTriple t = .ok "wasi".toList) ∧
    (t.getOS = .PS4 → getPlatformNameForTriple t = .ok "ps4".toList) ∧
    (t.getOS = .Win32 → t.getEnvironment = .Cygnus →
      getPlatformNameForTriple t = .ok "cygwin".toList) ∧
    (t.getOS = .Win32 → t.getEnvironment = .GNU →
      getPlatformNameForTriple t = .ok "mingw".toList) ∧
    (t.getOS = .Win32 → t.getEnvironment = .MSVC →
      getPlatformNameForTriple t = .ok "windows".toList) ∧
    (t.getOS = .Win32 → t.getEnvironment = .Itanium →
      getPlatformNameForTriple t = .ok "windows".toList) ∧
    (t.isOSDarwin = false → ∀ name, getPlatformNameForTriple t = .ok name →
      (t.getOS = .Linux ∨ t.getOS = .FreeBSD ∨ t.getOS = .OpenBSD ∨ t.getOS = .Haiku ∨
        t.getOS = .WASI ∨ t.getOS = .PS4 ∨
        (t.getOS = .Win32 ∧ (t.getEnvironment = .Cygnus ∨ t.getEnvironment = .GNU ∨
          t.getEnvironment = .MSVC ∨ t.getEnvironment = .Itanium)) ∨
        t.getOS ∈ platformlessOSTypes)) ∧
    (∀ name, getPlatformNameForTriple t = .ok name →
      (name = [] ↔ t.getOS ∈ platformlessOSTypes)) := by
  refine ⟨?_, ?_, ?_, ?_, ?_, ?_, ?_, ?_, ?_, ?_, ?_, ?_, ?_⟩
  · intro h1 h2
    simp [getPlatformNameForTriple, h1, Triple.isAndroid, h2]
  · intro h1 h2
    simp [getPlatformNameForTriple, h1, Triple.isAndroid, h2]
  · intro h1
    simp only [getPlatformNameForTriple, h1]
  · intro h1
    simp only [getPlatformNameForTriple, h1]
  · intro h1
    simp only [getPlatformNameForTriple, h1]
  · intro h1
    simp only [getPlatformNameForTriple, h1]
  · intro h1
    simp only [getPlatformNameForTriple, h1]
  · intro h1 h2
    simp only [getPlatformNameForTriple, h1, h2]
  · intro h1 h2
    simp only [getPlatformNameForTriple, h1, h2]
  · intro h1 h2
    simp only [getPlatformNameForTriple, h1, h2]
  · intro h1 h2
    simp only [getPlatformNameForTriple, h1, h2]
  · intro hd name hn
    have hos : ¬ (t.OS = .Darwin ∨ t.OS = .MacOSX ∨ t.OS = .IOS ∨ t.OS = .TvOS ∨
        t.OS = .WatchOS) := fun h => by
      rw [(Triple.isOSDarwin_iff t).mpr h] at hd
      cases hd
    rcases t with ⟨D, A, S, V, O, E, F⟩
    cases O <;> simp only [not_or, not_true_eq_false, false_and, and_false] at hos <;>
      first
        | (simp [Triple.getOS, platformlessOSTypes]; done)
        | (simp [getPlatformNameForTriple, Triple.getOS] at hn; done)
        | (cases E <;>
            simp [getPlatformNameForTriple, Triple.getOS, Triple.getEnvironment] at hn ⊢)
  · intro name hn
    by_cases hd : t.isOSDarwin = true
    · obtain ⟨k, hk⟩ := getDarwinPlatformKind_ok_of_darwin t hd
      rw [getPlatformNameForTriple_of_darwin t hd, hk] at hn
      have hname : name = getPlatformNameForDarwin k := by
        injection hn with hn
        exact hn.symm
      have hos := (Triple.isOSDarwin_iff t).mp hd
      constructor
      · intro h0
        rw [hname] at h0
        exact absurd h0 (getPlatformNameForDarwin_ne_nil k)
      · intro hmem
        exfalso
        simp only [Triple.getOS] at hmem
        rcases hos with hos | hos | hos | hos | hos <;> rw [hos] at hmem <;>
          exact absurd hmem (by decide)
    · have hos : ¬ (t.OS = .Darwin ∨ t.OS = .MacOSX ∨ t.OS = .IOS ∨ t.OS = .TvOS ∨
          t.OS = .WatchOS) := fun h => hd ((Triple.isOSDarwin_iff t).mpr h)
      rcases t with ⟨D, A, S, V, O, E, F⟩
      cases O <;> simp only [not_or, not_true_eq_false, false_and, and_false] at hos <;>
        first
          | (simp [getPlatformNameForTriple, Triple.getOS, platformlessOSTypes] at hn ⊢
             try (subst hn; simp)
             done)
          | (simp [getPlatformNameForTriple, Triple.getOS, platformlessOSTypes] at hn ⊢
             split_ifs at hn <;> (subst hn; simp))
          | (cases E <;>
              simp [getPlatformNameForTriple, Triple.getOS, Triple.getEnvironment,
                platformlessOSTypes] at hn ⊢ <;> (subst hn; simp))

end swift

/-! ## Theorems: Android and other triples, architecture names, classification -/

namespace llvm

/-- An environment name that `parseEnvironment` maps to `Android` starts with
`android`. -/
theorem parseEnvironment_eq_Android (e : StringRef) (h : parseEnvironment e = .Android) :
    ∃ r, e = "android".toList ++ r := by
  rcases StringSwitch.StartsWith_cases parseEnvironmentCases .UnknownEnvironment e with
    ⟨c, hc, hs, hv⟩ | hd
  · have key : ∀ x ∈ parseEnvironmentCases,
        x.2 = EnvironmentType.Android → x.1 = "android".toList := by decide
    have hp := key c hc (by rw [← hv]; exact h)
    rw [hp] at hs
    obtain ⟨r, hr⟩ := List.isPrefixOf_iff_prefix.mp hs
    exact ⟨r, hr.symm⟩
  · rw [parseEnvironment, hd] at h
    cases h

/-- An environment name that `parseEnvironment` maps to `Simulator` starts
with `simulator`. -/
theorem parseEnvironment_eq_Simulator (e : StringRef)
    (h : parseEnvironment e = .Simulator) : ∃ r, e = "simulator".toList ++ r := by
  rcases StringSwitch.StartsWith_cases parseEnvironmentCases .UnknownEnvironment e with
    ⟨c, hc, hs, hv⟩ | hd
  · have key : ∀ x ∈ parseEnvironmentCases,
        x.2 = EnvironmentType.Simulator → x.1 = "simulator".toList := by decide
    have hp := key c hc (by rw [← hv]; exact h)
    rw [hp] at hs
    obtain ⟨r, hr⟩ := List.isPrefixOf_iff_prefix.mp hs
    exact ⟨r, hr.symm⟩
  · rw [parseEnvironment, hd] at h
    cases h

/-- A parsed triple of one component has the unknown OS. -/
theorem Triple.ofString_mem_of_OS (P : ComponentTables) (s : StringRef)
    (h : (Triple.ofString P s).OS ≠ .UnknownOS) : '-' ∈ s := by
  by_contra h0
  apply h
  rw [Triple.ofString_OS, Triple.getOSName, Triple.ofString_Data,
    split_of_not_mem _ _ h0]
  exact (by decide : parseOS (split '-' (split '-' ([] : StringRef)).2).1 = .UnknownOS)

/-- The environment of a parsed triple whose OS is known is what
`parseEnvironment` gives on its environment name. -/
theorem Triple.ofString_Environment_of_OS (P : ComponentTables) (s : StringRef)
    (h : (Triple.ofString P s).OS ≠ .UnknownOS) :
    (Triple.ofString P s).Environment =
      parseEnvironment (Triple.ofString P s).getEnvironmentName := by
  rw [Triple.ofString_Environment, if_pos (Triple.ofString_mem_of_OS P s h)]

/-- The vendor of a parsed triple whose OS is known is what the table gives
on its vendor name. -/
theorem Triple.ofString_Vendor_of_OS (P : ComponentTables) (s : StringRef)
    (h : (Triple.ofString P s).OS ≠ .UnknownOS) :
    (Triple.ofString P s).Vendor = P.parseVendor (Triple.ofString P s).getVendorName := by
  have h0 := Triple.ofString_mem_of_OS P s h
  have hname : (Triple.ofString P s).getVendorName = (split '-' (split '-' s).2).1 := by
    rw [Triple.getVendorName, Triple.ofString_Data]
  rw [hname]
  have hV : (Triple.ofString P s).Vendor =
      (match splitMax '-' 3 s with
        | _ :: c1 :: _ => P.parseVendor c1
        | _ => .UnknownVendor) := by
    unfold Triple.ofString
    generalize splitMax '-' 3 s = l
    rcases l with _ | ⟨c0, _ | ⟨c1, _ | ⟨c2, _ | ⟨c3, tl⟩⟩⟩⟩ <;> simp only <;>
      split_ifs <;> rfl
  rw [hV]
  by_cases h1 : '-' ∈ (split '-' s).2
  · simp [splitMax, h0, h1]
  · simp [splitMax, h0, h1, split_of_not_mem _ _ h1]

end llvm

namespace swift

open llvm

/-- On a triple that is not Darwin-family and has the Android environment the
module triple is built by the four-argument constructor from the three
component names and the name `android`. -/
theorem getTargetSpecificModuleTriple_of_android (P : ComponentTables) (t : Triple)
    (hd : t.isOSDarwin = false) (ha : t.getEnvironment = .Android) :
    getTargetSpecificModuleTriple P t =
      Triple.ofArchVendorOSEnvironment P t.getArchName t.getVendorName t.getOSName
        "android".toList := by
  have hnd : ¬ t.isOSDarwin = true := by simp [hd]
  have har : t.isAndroid = true := by simp [Triple.isAndroid, ha]
  unfold getTargetSpecificModuleTriple
  rw [dif_neg hnd, if_pos har, ha]
  rfl

/-- On a triple that is neither Darwin-family nor of the Android environment
the module triple is the triple itself. -/
theorem getTargetSpecificModuleTriple_of_other (P : ComponentTables) (t : Triple)
    (hd : t.isOSDarwin = false) (ha : t.isAndroid = false) :
    getTargetSpecificModuleTriple P t = t := by
  have hnd : ¬ t.isOSDarwin = true := by simp [hd]
  have har : ¬ t.isAndroid = true := by simp [ha]
  unfold getTargetSpecificModuleTriple
  rw [dif_neg hnd, if_neg har]

/-- Removing the trailing digits of `android` followed by digits gives
`android`. -/
theorem dropTrailingDigits_android (r : StringRef)
    (hr : ∀ c ∈ r, '0' ≤ c ∧ c ≤ '9') :
    dropTrailingDigits ("android".toList ++ r) = "android".toList := by
  have hdrop : ∀ (l : StringRef), (∀ c ∈ l, '0' ≤ c ∧ c ≤ '9') → ∀ (k : StringRef),
      (l ++ k).dropWhile (fun c => decide ('0' ≤ c ∧ c ≤ '9')) =
        k.dropWhile (fun c => decide ('0' ≤ c ∧ c ≤ '9')) := by
    intro l
    induction l with
    | nil => intro _ k; rfl
    | cons a l ih =>
      intro hl k
      have ha : decide ('0' ≤ a ∧ a ≤ '9') = true := by
        simpa using hl a (by simp)
      rw [List.cons_append, List.dropWhile_cons, if_pos ha]
      exact ih (fun c hc => hl c (by simp [hc])) k
  unfold dropTrailingDigits
  rw [List.reverse_append, hdrop r.reverse (fun c hc => hr c (List.mem_reverse.mp hc))]
  decide


/-- C21, counterexample: `armv7-unknown-linux-androideabi21` is a Linux triple
with the Android environment; its environment name without the trailing
digits is `androideabi`, and the environment name of its module triple is
`android`. -/
theorem moduleTriple_androideabi_counterexample :
    androidEabiTriple.getOS = .Linux ∧ androidEabiTriple.getEnvironment = .Android ∧
    dropTrailingDigits androidEabiTriple.getEnvironmentName = "androideabi".toList ∧
    (getTargetSpecificModuleTriple exampleTables androidEabiTriple).getEnvironmentName =
      "android".toList ∧
    (getTargetSpecificModuleTriple exampleTables androidEabiTriple).getEnvironmentName ≠
      dropTrailingDigits androidEabiTriple.getEnvironmentName := by
  decide

/-- C21, amended: on a parsed Linux triple with the Android environment the
module triple has the architecture, vendor and OS names of the input and the
parsed fields of the input, and its environment name is `android`: the
input's environment name, which starts with `android`, with everything
behind `android` removed.  When only digits follow `android` in the input,
that is the input's environment name without its trailing digits. -/
theorem moduleTriple_android (P : ComponentTables) (t : Triple)
    (ht : t = Triple.ofString P t.Data)
    (hos : t.getOS = .Linux) (henv : t.getEnvironment = .Android) :
    (getTargetSpecificModuleTriple P t).getArchName = t.getArchName ∧
    (getTargetSpecificModuleTriple P t).getVendorName = t.getVendorName ∧
    (getTargetSpecificModuleTriple P t).getOSName = t.getOSName ∧
    (getTargetSpecificModuleTriple P t).getEnvironmentName = "android".toList ∧
    (∃ r, t.getEnvironmentName = "android".toList ++ r) ∧
    (∀ r, t.getEnvironmentName = "android".toList ++ r → (∀ c ∈ r, '0' ≤ c ∧ c ≤ '9') →
      (getTargetSpecificModuleTriple P t).getEnvironmentName =
        dropTrailingDigits t.getEnvironmentName) ∧
    (getTargetSpecificModuleTriple P t).Arch = t.Arch ∧
    (getTargetSpecificModuleTriple P t).SubArch = t.SubArch ∧
    (getTargetSpecificModuleTriple P t).Vendor = t.Vendor ∧
    (getTargetSpecificModuleTriple P t).OS = t.OS ∧
    (getTargetSpecificModuleTriple P t).Environment = t.Environment := by
  obtain ⟨s, rfl⟩ : ∃ s, t = Triple.ofString P s := ⟨_, ht⟩
  have hOS : (Triple.ofString P s).OS = .Linux := hos
  have hEnv : (Triple.ofString P s).Environment = .Android := henv
  have hknown : (Triple.ofString P s).OS ≠ .UnknownOS := by
    rw [hOS]
    decide
  have hd : (Triple.ofString P s).isOSDarwin = false := by
    rw [← Bool.not_eq_true, Triple.isOSDarwin_iff, hOS]
    decide
  obtain ⟨f1, f2, f3, f4, f5, f6⟩ := Triple.ofArchVendorOSEnvironment_fields P
    (Triple.ofString P s).getArchName (Triple.ofString P s).getVendorName
    (Triple.ofString P s).getOSName "android".toList
  obtain ⟨n1, n2, n3, n4⟩ := Triple.names_of_four _ _ _ _ _ f1
    (split_fst_not_mem '-' _) (split_fst_not_mem '-' _) (split_fst_not_mem '-' _)
  rw [getTargetSpecificModuleTriple_of_android P _ hd henv]
  have hpre : ∃ r, (Triple.ofString P s).getEnvironmentName = "android".toList ++ r := by
    apply parseEnvironment_eq_Android
    rw [← Triple.ofString_Environment_of_OS P s hknown]
    exact hEnv
  refine ⟨n1, n2, n3, n4, hpre, ?_, ?_, ?_, ?_, ?_, ?_⟩
  · intro r hr hdig
    rw [n4, hr, dropTrailingDigits_android r hdig]
  · rw [f2, (Triple.ofString_Arch P s).1]
  · rw [f3, (Triple.ofString_Arch P s).2]
  · rw [f4, Triple.ofString_Vendor_of_OS P s hknown]
  · rw [f5, ← Triple.ofString_OS P s]
  · rw [f6, hEnv]
    decide

/-- C21, witness: the triple `aarch64-unknown-linux-android21`, whose module
triple is `aarch64-unknown-linux-android`. -/
theorem moduleTriple_android_witness :
    android21Triple = Triple.ofString exampleTables android21Triple.Data ∧
    android21Triple.getOS = .Linux ∧ android21Triple.getEnvironment = .Android ∧
    (getTargetSpecificModuleTriple exampleTables android21Triple).getEnvironmentName =
      "android".toList ∧
    (getTargetSpecificModuleTriple exampleTables android21Triple).Data =
      "aarch64-unknown-linux-android".toList :=
  ⟨by decide, by decide, by decide,
    (moduleTriple_android exampleTables android21Triple (by decide) (by decide)
      (by decide)).2.2.2.1,
    by decide⟩

/-- C22, counterexample: `x86_64-unknown-freebsd-android21` is not
Darwin-family and not a Linux triple, but it has the Android environment,
and its module triple `x86_64-unknown-freebsd-android` is not the input. -/
theorem moduleTriple_freebsd_android_counterexample :
    freebsdAndroidTriple.isOSDarwin = false ∧
    ¬ (freebsdAndroidTriple.getOS = .Linux ∧ freebsdAndroidTriple.getEnvironment = .Android) ∧
    (getTargetSpecificModuleTriple exampleTables freebsdAndroidTriple).Data =
      "x86_64-unknown-freebsd-android".toList ∧
    getTargetSpecificModuleTriple exampleTables freebsdAndroidTriple ≠
      freebsdAndroidTriple := by
  decide

/-- C22, amended: on every triple that is neither Darwin-family nor of the
Android environment, whatever its OS, `getTargetSpecificModuleTriple` returns
the input triple unchanged. -/
theorem moduleTriple_other_unchanged (P : ComponentTables) (t : Triple)
    (hd : t.isOSDarwin = false) (ha : t.isAndroid = false) :
    getTargetSpecificModuleTriple P t = t :=
  getTargetSpecificModuleTriple_of_other P t hd ha

/-- C22, witness: the triple `x86_64-unknown-linux-gnu`. -/
theorem moduleTriple_other_unchanged_witness :
    linuxGnuTriple.isOSDarwin = false ∧ linuxGnuTriple.isAndroid = false ∧
    getTargetSpecificModuleTriple exampleTables linuxGnuTriple = linuxGnuTriple :=
  ⟨by decide, by decide,
    moduleTriple_other_unchanged exampleTables linuxGnuTriple (by decide) (by decide)⟩

/-- C23: `getMajorArchitectureName` is `armv7` on a Linux triple of ARM
sub-architecture v7, `armv6` on a Linux triple of ARM sub-architecture v6,
and the architecture name of the triple in every other case: any other
sub-architecture on Linux, and every triple that is not Linux.  On
`armv7l-unknown-linux-gnueabihf` it is `armv7`, on
`armv7l-unknown-freebsd-gnueabihf` it is `armv7l`. -/
theorem getMajorArchitectureName_cases (t : Triple) :
    (t.isOSLinux = true → t.getSubArch = .ARMSubArch_v7 →
      getMajorArchitectureName t = "armv7".toList) ∧
    (t.isOSLinux = true → t.getSubArch = .ARMSubArch_v6 →
      getMajorArchitectureName t = "armv6".toList) ∧
    (t.isOSLinux = true → t.getSubArch ≠ .ARMSubArch_v7 → t.getSubArch ≠ .ARMSubArch_v6 →
      getMajorArchitectureName t = t.getArchName) ∧
    (t.isOSLinux = false → getMajorArchitectureName t = t.getArchName) ∧
    getMajorArchitectureName armv7lLinuxTriple = "armv7".toList ∧
    getMajorArchitectureName armv7lFreeBSDTriple = "armv7l".toList ∧
    getMajorArchitectureName linuxGnuTriple = "x86_64".toList := by
  refine ⟨?_, ?_, ?_, ?_, by decide, by decide, by decide⟩
  · intro h1 h2
    simp [getMajorArchitectureName, h1, h2]
  · intro h1 h2
    simp [getMajorArchitectureName, h1, h2]
  · intro h1 h2 h3
    unfold getMajorArchitectureName
    rw [if_pos h1]
    split
    · rename_i h
      exact absurd h h2
    · rename_i h
      exact absurd h h3
    · rfl
  · intro h1
    simp [getMajorArchitectureName, h1]

end swift

namespace llvm

/-- Two triples with the same OS, or with the OS Darwin and MacOSX, are in
the same OS class for the predicates of `getDarwinPlatformKind`. -/
theorem Triple.os_class_eq (a b : Triple)
    (h : a.OS = b.OS ∨ (b.OS = .Darwin ∧ a.OS = .MacOSX)) :
    a.isiOS = b.isiOS ∧ a.isTvOS = b.isTvOS ∧ a.isWatchOS = b.isWatchOS ∧
      a.isMacOSX = b.isMacOSX := by
  rcases h with h | ⟨h1, h2⟩
  · simp only [Triple.isiOS, Triple.isTvOS, Triple.isWatchOS, Triple.isMacOSX, Triple.getOS,
      h, and_self]
  · simp only [Triple.isiOS, Triple.isTvOS, Triple.isWatchOS, Triple.isMacOSX, Triple.getOS,
      h1, h2]
    decide

end llvm

namespace swift

open llvm

/-- The OS aliasing keeps the OS that `parseOS` gives a Darwin-family OS name,
except that it turns Darwin into MacOSX when the name without its version is
`darwin`. -/
theorem parseOS_specOSAlias_class (o : StringRef)
    (h : parseOS o = .Darwin ∨ parseOS o = .MacOSX ∨ parseOS o = .IOS ∨ parseOS o = .TvOS ∨
      parseOS o = .WatchOS) :
    parseOS (specOSAlias o) = parseOS o ∨
      (parseOS o = .Darwin ∧ parseOS (specOSAlias o) = .MacOSX) := by
  obtain ⟨p, r, ho, hp⟩ := parseOS_darwin_family o h
  subst ho
  unfold specOSAlias
  simp only
  split_ifs with h1 h2
  · rcases hp with hp | hp | hp | hp | hp <;> subst hp
    · right
      exact ⟨by simp [parseOS, StringSwitch.StartsWith, parseOSCases, startswith],
        by decide⟩
    · left
      simp [parseOS, StringSwitch.StartsWith, parseOSCases, startswith]
    · exfalso
      simp [List.takeWhile] at h1
    · exfalso
      simp [List.takeWhile] at h1
    · exfalso
      simp [List.takeWhile] at h1
  · exfalso
    rcases hp with hp | hp | hp | hp | hp <;> subst hp <;> simp [List.takeWhile] at h2
  · left
    rcases hp with hp | hp | hp | hp | hp <;> subst hp <;>
      simp [List.takeWhile, parseOS, StringSwitch.StartsWith, parseOSCases, startswith]

/-- The platform kind depends on the triple only through its OS class and its
environment. -/
theorem getDarwinPlatformKind_congr (a b : Triple)
    (h1 : a.isiOS = b.isiOS) (h2 : a.isTvOS = b.isTvOS) (h3 : a.isWatchOS = b.isWatchOS)
    (h4 : a.isMacOSX = b.isMacOSX) (h5 : a.Environment = b.Environment) :
    getDarwinPlatformKind a = getDarwinPlatformKind b := by
  simp only [getDarwinPlatformKind, tripleIsiOSSimulator, tripleIsAppleTVSimulator,
    tripleIsWatchSimulator, tripleIsMacCatalystEnvironment, Triple.isSimulatorEnvironment,
    Triple.getEnvironment, h1, h2, h3, h4, h5]

/-- The environment that the rebuilt triple parses from the environment
component of the specification is the one parsed from the whole name. -/
theorem parseEnvironment_specEnvironment (e : StringRef) :
    (match specEnvironment e with
      | none => EnvironmentType.UnknownEnvironment
      | some x => parseEnvironment x) = parseEnvironment e := by
  cases hE : specEnvironment e with
  | none =>
    rcases specEnvironment_eq_none e hE with h | h <;> rw [h] <;> decide
  | some x =>
    obtain ⟨hx, _, _⟩ := specEnvironment_eq_some _ _ hE
    rw [hx]

/-- A simulator kind is returned only on a triple of the simulator
environment. -/
theorem isSimulatorEnvironment_of_simulator_kind (t : Triple)
    (h : getDarwinPlatformKind t = .ok .IPhoneOSSimulator ∨
      getDarwinPlatformKind t = .ok .TvOSSimulator ∨
      getDarwinPlatformKind t = .ok .WatchOSSimulator) :
    t.isSimulatorEnvironment = true := by
  by_contra hs
  have hs2 : t.isSimulatorEnvironment = false := by simpa using hs
  simp only [getDarwinPlatformKind, tripleIsiOSSimulator, tripleIsAppleTVSimulator,
    tripleIsWatchSimulator, hs2, Bool.and_false, Bool.false_eq_true, if_false] at h
  split_ifs at h <;> simp at h

/-- On a triple that is not of the simulator environment the platform kind is
the device kind of its OS. -/
theorem getDarwinPlatformKind_of_not_simulator (t : Triple)
    (hs : t.isSimulatorEnvironment = false) :
    (t.getOS = .IOS → getDarwinPlatformKind t = .ok .IPhoneOS) ∧
    (t.getOS = .TvOS → getDarwinPlatformKind t = .ok .TvOS) ∧
    (t.getOS = .WatchOS → getDarwinPlatformKind t = .ok .WatchOS) := by
  refine ⟨?_, ?_, ?_⟩ <;> intro hos <;>
    simp [getDarwinPlatformKind, tripleIsiOSSimulator, tripleIsAppleTVSimulator,
      tripleIsWatchSimulator, Triple.isiOS, Triple.isTvOS, Triple.isWatchOS, hs, hos]


/-- C24: for every parsed Darwin-family triple, its module triple is again
Darwin-family, `getDarwinPlatformKind` returns the same kind on both, and
both have the same platform name. -/
theorem moduleTriple_preserves_platform_kind (P : ComponentTables) (t : Triple)
    (ht : t = Triple.ofString P t.Data) (hd : t.isOSDarwin = true) :
    (getTargetSpecificModuleTriple P t).isOSDarwin = true ∧
    getDarwinPlatformKind (getTargetSpecificModuleTriple P t) = getDarwinPlatformKind t ∧
    getPlatformNameForTriple (getTargetSpecificModuleTriple P t) =
      getPlatformNameForTriple t := by
  obtain ⟨s, rfl⟩ : ∃ s, t = Triple.ofString P s := ⟨_, ht⟩
  have hfam := (Triple.isOSDarwin_iff _).mp hd
  have hOS := Triple.ofString_OS P s
  have hknown : (Triple.ofString P s).OS ≠ .UnknownOS := by
    rcases hfam with h | h | h | h | h <;> rw [h] <;> decide
  have hEnv := Triple.ofString_Environment_of_OS P s hknown
  obtain ⟨_, _, _, _, _, _, _, _, _, g10, g11⟩ :=
    getTargetSpecificModuleTriple_darwin_fields P _ hd
  rw [parseEnvironment_specEnvironment, ← hEnv] at g11
  have hfam2 : parseOS (Triple.ofString P s).getOSName = .Darwin ∨
      parseOS (Triple.ofString P s).getOSName = .MacOSX ∨
      parseOS (Triple.ofString P s).getOSName = .IOS ∨
      parseOS (Triple.ofString P s).getOSName = .TvOS ∨
      parseOS (Triple.ofString P s).getOSName = .WatchOS := by
    rw [← hOS]
    exact hfam
  have hcls := parseOS_specOSAlias_class _ hfam2
  rw [← g10, ← hOS] at hcls
  have hd2 : (getTargetSpecificModuleTriple P (Triple.ofString P s)).isOSDarwin = true := by
    rw [Triple.isOSDarwin_iff]
    rcases hcls with h | ⟨_, h⟩
    · rw [h]
      exact hfam
    · exact Or.inr (Or.inl h)
  have hkind : getDarwinPlatformKind (getTargetSpecificModuleTriple P (Triple.ofString P s)) =
      getDarwinPlatformKind (Triple.ofString P s) := by
    obtain ⟨c1, c2, c3, c4⟩ := Triple.os_class_eq _ _ hcls
    exact getDarwinPlatformKind_congr _ _ c1 c2 c3 c4 g11
  refine ⟨hd2, hkind, ?_⟩
  rw [getPlatformNameForTriple_of_darwin _ hd2, getPlatformNameForTriple_of_darwin _ hd,
    hkind]

/-- C24, witness: the triple `x86_64-apple-darwin19.6.0`, whose module triple
`x86_64-apple-macos` has the OS MacOSX instead of Darwin and the same kind
`MacOS`. -/
theorem moduleTriple_preserves_platform_kind_witness :
    darwin19Triple = Triple.ofString exampleTables darwin19Triple.Data ∧
    darwin19Triple.isOSDarwin = true ∧
    (getTargetSpecificModuleTriple exampleTables darwin19Triple).isOSDarwin = true ∧
    getDarwinPlatformKind (getTargetSpecificModuleTriple exampleTables darwin19Triple) =
      getDarwinPlatformKind darwin19Triple ∧
    getDarwinPlatformKind darwin19Triple = .ok .MacOS ∧
    (getTargetSpecificModuleTriple exampleTables darwin19Triple).Data =
      "x86_64-apple-macos".toList :=
  ⟨by decide, by decide,
    (moduleTriple_preserves_platform_kind exampleTables darwin19Triple (by decide)
      (by decide)).1,
    (moduleTriple_preserves_platform_kind exampleTables darwin19Triple (by decide)
      (by decide)).2.1,
    by decide, by decide⟩

/-- C25: on every parsed triple for which `tripleInfersSimulatorEnvironment`
is true, `getDarwinPlatformKind` returns the device kind of the OS,
`IPhoneOS`, `TvOS` or `WatchOS`, and no simulator kind.  On every triple a
simulator kind is returned only when the environment is the simulator one,
and on a parsed triple only when the environment name starts with
`simulator`.  So `x86_64-apple-ios13.0` infers the simulator and is
classified `IPhoneOS`. -/
theorem getDarwinPlatformKind_ignores_inference :
    (∀ (P : ComponentTables) (s : StringRef),
      tripleInfersSimulatorEnvironment (Triple.ofString P s) = true →
        ((Triple.ofString P s).getOS = .IOS →
          getDarwinPlatformKind (Triple.ofString P s) = .ok .IPhoneOS) ∧
        ((Triple.ofString P s).getOS = .TvOS →
          getDarwinPlatformKind (Triple.ofString P s) = .ok .TvOS) ∧
        ((Triple.ofString P s).getOS = .WatchOS →
          getDarwinPlatformKind (Triple.ofString P s) = .ok .WatchOS) ∧
        ((Triple.ofString P s).getOS = .IOS ∨ (Triple.ofString P s).getOS = .TvOS ∨
          (Triple.ofString P s).getOS = .WatchOS) ∧
        getDarwinPlatformKind (Triple.ofString P s) ≠ .ok .IPhoneOSSimulator ∧
        getDarwinPlatformKind (Triple.ofString P s) ≠ .ok .TvOSSimulator ∧
        getDarwinPlatformKind (Triple.ofString P s) ≠ .ok .WatchOSSimulator) ∧
    (∀ t : Triple,
      (getDarwinPlatformKind t = .ok .IPhoneOSSimulator ∨
        getDarwinPlatformKind t = .ok .TvOSSimulator ∨
        getDarwinPlatformKind t = .ok .WatchOSSimulator) →
      t.isSimulatorEnvironment = true) ∧
    (∀ (P : ComponentTables) (s : StringRef),
      (getDarwinPlatformKind (Triple.ofString P s) = .ok .IPhoneOSSimulator ∨
        getDarwinPlatformKind (Triple.ofString P s) = .ok .TvOSSimulator ∨
        getDarwinPlatformKind (Triple.ofString P s) = .ok .WatchOSSimulator) →
      ∃ r, (Triple.ofString P s).getEnvironmentName = "simulator".toList ++ r) ∧
    tripleInfersSimulatorEnvironment x86_64iOSTriple = true ∧
    getDarwinPlatformKind x86_64iOSTriple = .ok .IPhoneOS := by
  refine ⟨?_, isSimulatorEnvironment_of_simulator_kind, ?_, by decide, by decide⟩
  · intro P s hinf
    obtain ⟨hos, hne, _⟩ := (tripleInfersSimulatorEnvironment_iff_of _
      (Triple.ofString_hasEnvironment_of_MacABI P s)).mp hinf
    have hknown : (Triple.ofString P s).OS ≠ .UnknownOS := by
      rcases hos with h | h | h <;> rw [show (Triple.ofString P s).OS = _ from h] <;> decide
    have hname : (Triple.ofString P s).getEnvironmentName = [] := by
      simpa [Triple.hasEnvironment] using hne
    have hs : (Triple.ofString P s).isSimulatorEnvironment = false := by
      rw [Triple.isSimulatorEnvironment, Triple.getEnvironment,
        Triple.ofString_Environment_of_OS P s hknown, hname]
      decide
    obtain ⟨k1, k2, k3⟩ := getDarwinPlatformKind_of_not_simulator _ hs
    have hnot : ∀ k, (k = DarwinPlatformKind.IPhoneOSSimulator ∨ k = .TvOSSimulator ∨
        k = .WatchOSSimulator) →
        getDarwinPlatformKind (Triple.ofString P s) ≠ .ok k := by
      intro k hk heq
      have := isSimulatorEnvironment_of_simulator_kind (Triple.ofString P s)
        (by rcases hk with h | h | h <;> subst h <;> simp [heq])
      rw [hs] at this
      cases this
    exact ⟨k1, k2, k3, hos, hnot _ (Or.inl rfl), hnot _ (Or.inr (Or.inl rfl)),
      hnot _ (Or.inr (Or.inr rfl))⟩
  · intro P s hk
    have hsim := isSimulatorEnvironment_of_simulator_kind _ hk
    have hE : (Triple.ofString P s).Environment = .Simulator := by
      simpa [Triple.isSimulatorEnvironment, Triple.getEnvironment] using hsim
    have hknown : (Triple.ofString P s).OS ≠ .UnknownOS := by
      intro h0
      have hnd : (Triple.ofString P s).isOSDarwin = false := by
        rw [← Bool.not_eq_true, Triple.isOSDarwin_iff, h0]
        decide
      have h3 : (Triple.ofString P s).isMacOSX = false ∧
          (Triple.ofString P s).isiOS = false ∧ (Triple.ofString P s).isWatchOS = false := by
        simpa [Triple.isOSDarwin, and_assoc] using hnd
      simp [getDarwinPlatformKind, h3.1, h3.2.1, h3.2.2] at hk
    apply parseEnvironment_eq_Simulator
    rw [← Triple.ofString_Environment_of_OS P s hknown]
    exact hE

end swift
